import Mathlib

/-!
A verification development for the family-finance ingestion pipeline:
bank-CSV parsers, deterministic transaction-identity assignment,
dictionary (de)serialisation of transactions, the duplicate-rejecting
store, the parser registry, and the directory watcher.

Python strings are modelled as `List Char`; Python `Decimal`, `date`
and `datetime` are modelled as concrete structures together with the
library serialisation/parsing routines the code relies on.
-/

namespace FamFin

/-! ## Decimal-digit utilities -/

/-- Numeric value of a list of decimal digit values, most significant first. -/
def digitsVal (ds : List Nat) : Nat := ds.foldl (fun a d => a * 10 + d) 0

/-- Fuel-driven decimal expansion of a natural number (most significant first). -/
def digitsFuel : Nat → Nat → List Nat
  | 0, _ => []
  | fuel + 1, n => if n < 10 then [n] else digitsFuel fuel (n / 10) ++ [n % 10]

/-- Decimal digit expansion of a natural number, most significant first. -/
def natDigits (n : Nat) : List Nat := digitsFuel (n + 1) n

theorem foldl_digits (ds : List Nat) (acc : Nat) :
    ds.foldl (fun a d => a * 10 + d) acc = acc * 10 ^ ds.length + digitsVal ds := by
  induction ds generalizing acc with
  | nil => simp [digitsVal]
  | cons d ds ih =>
    have hval : digitsVal (d :: ds) = d * 10 ^ ds.length + digitsVal ds := by
      have := ih d
      simpa [digitsVal] using this
    simp only [List.foldl_cons, ih (acc * 10 + d), hval, List.length_cons]
    ring

theorem digitsVal_append (a b : List Nat) :
    digitsVal (a ++ b) = digitsVal a * 10 ^ b.length + digitsVal b := by
  unfold digitsVal
  rw [List.foldl_append]
  exact foldl_digits b _

theorem digitsVal_cons (d : Nat) (ds : List Nat) :
    digitsVal (d :: ds) = d * 10 ^ ds.length + digitsVal ds := by
  simpa [digitsVal] using foldl_digits ds d

theorem digitsFuel_spec : ∀ (fuel n : Nat), n < fuel → digitsVal (digitsFuel fuel n) = n := by
  intro fuel
  induction fuel with
  | zero => intro n h; omega
  | succ f ih =>
    intro n h
    by_cases h10 : n < 10
    · simp [digitsFuel, h10, digitsVal]
    · have hdiv : n / 10 < n := Nat.div_lt_self (by omega) (by omega)
      have : digitsVal (digitsFuel f (n / 10)) = n / 10 := ih (n / 10) (by omega)
      simp only [digitsFuel, if_neg h10]
      rw [digitsVal_append, this]
      simp [digitsVal]
      omega

theorem digitsVal_natDigits (n : Nat) : digitsVal (natDigits n) = n :=
  digitsFuel_spec (n + 1) n (Nat.lt_succ_self n)

theorem digitsFuel_ne_nil : ∀ (fuel n : Nat), n < fuel → digitsFuel fuel n ≠ [] := by
  intro fuel n h
  cases fuel with
  | zero => omega
  | succ f =>
    by_cases h10 : n < 10 <;> simp [digitsFuel, h10]

theorem natDigits_ne_nil (n : Nat) : natDigits n ≠ [] :=
  digitsFuel_ne_nil (n + 1) n (Nat.lt_succ_self n)

theorem digitsFuel_lt_ten : ∀ (fuel n : Nat), ∀ d ∈ digitsFuel fuel n, d < 10 := by
  intro fuel
  induction fuel with
  | zero => intro n d hd; simp [digitsFuel] at hd
  | succ f ih =>
    intro n d hd
    by_cases h10 : n < 10
    · simp [digitsFuel, h10] at hd; omega
    · simp only [digitsFuel, if_neg h10, List.mem_append, List.mem_singleton] at hd
      rcases hd with hd | hd
      · exact ih _ _ hd
      · subst hd; exact Nat.mod_lt _ (by omega)

theorem natDigits_lt_ten (n : Nat) : ∀ d ∈ natDigits n, d < 10 :=
  digitsFuel_lt_ten (n + 1) n

/-- The decimal expansion of `n < 10 ^ w` (with `0 < w`) has at most `w` digits. -/
theorem digitsFuel_length_le : ∀ (fuel n w : Nat), n < fuel → n < 10 ^ w → 0 < w →
    (digitsFuel fuel n).length ≤ w := by
  intro fuel
  induction fuel with
  | zero => intro n w h _ _; omega
  | succ f ih =>
    intro n w h hw hw0
    by_cases h10 : n < 10
    · simp [digitsFuel, h10]
      omega
    · have hdiv : n / 10 < n := Nat.div_lt_self (by omega) (by omega)
      cases w with
      | zero => omega
      | succ w' =>
        have hw' : 0 < w' := by
          rcases Nat.eq_zero_or_pos w' with h0 | h0
          · subst h0; simp [pow_succ] at hw; omega
          · exact h0
        have hwd : n / 10 < 10 ^ w' := by
          apply Nat.div_lt_of_lt_mul
          calc n < 10 ^ (w' + 1) := hw
            _ = 10 * 10 ^ w' := by ring
        have := ih (n / 10) w' (by omega) hwd hw'
        simp only [digitsFuel, if_neg h10, List.length_append, List.length_cons,
          List.length_nil]
        omega

theorem natDigits_length_le {n w : Nat} (h : n < 10 ^ w) (hw : 0 < w) :
    (natDigits n).length ≤ w :=
  digitsFuel_length_le (n + 1) n w (Nat.lt_succ_self n) h hw

/-! ## Characters and numeric strings -/

/-- Model of a Python `str`. -/
abbrev Str := List Char

/-- Value of a decimal digit character. -/
def charDigitVal (c : Char) : Nat := c.toNat - 48

/-- Decimal digit characters of a natural number: Python `str(n)` for non-negative `n`. -/
def natChars (n : Nat) : Str := (natDigits n).map Nat.digitChar

/-- Numeric value of a string of decimal digit characters. -/
def charsVal (cs : Str) : Nat := digitsVal (cs.map charDigitVal)

/-- Zero padding of a natural number to width `w` (Python `'%02d'`-style formatting). -/
def padChars (w n : Nat) : Str :=
  List.replicate (w - (natChars n).length) '0' ++ natChars n

/-- Python `str(i)` for an `int`. -/
def intChars (i : Int) : Str :=
  if i < 0 then '-' :: natChars i.natAbs else natChars i.natAbs

/-- Python `'%+d' % i`: always an explicit sign. -/
def intCharsSigned (i : Int) : Str :=
  if i < 0 then '-' :: natChars i.natAbs else '+' :: natChars i.natAbs

theorem digitChar_isDigit {d : Nat} (h : d < 10) : (Nat.digitChar d).isDigit = true := by
  interval_cases d <;> decide

theorem charDigitVal_digitChar {d : Nat} (h : d < 10) : charDigitVal (Nat.digitChar d) = d := by
  interval_cases d <;> decide

theorem natChars_all_digit (n : Nat) : ∀ c ∈ natChars n, c.isDigit = true := by
  intro c hc
  simp only [natChars, List.mem_map] at hc
  obtain ⟨d, hd, rfl⟩ := hc
  exact digitChar_isDigit (natDigits_lt_ten n d hd)

theorem charsVal_natChars (n : Nat) : charsVal (natChars n) = n := by
  unfold charsVal natChars
  rw [List.map_map]
  have h : (natDigits n).map (charDigitVal ∘ Nat.digitChar) = (natDigits n).map id := by
    apply List.map_congr_left
    intro d hd
    simpa using charDigitVal_digitChar (natDigits_lt_ten n d hd)
  rw [h, List.map_id]
  exact digitsVal_natDigits n

theorem natChars_ne_nil (n : Nat) : natChars n ≠ [] := by
  unfold natChars
  simp [natDigits_ne_nil n]

theorem charsVal_append (a b : Str) :
    charsVal (a ++ b) = charsVal a * 10 ^ b.length + charsVal b := by
  unfold charsVal
  rw [List.map_append, digitsVal_append, List.length_map]

theorem charsVal_zeros (k : Nat) : charsVal (List.replicate k '0') = 0 := by
  induction k with
  | zero => decide
  | succ k ih =>
    have : List.replicate (k + 1) '0' = '0' :: List.replicate k '0' := rfl
    rw [this]
    unfold charsVal at ih ⊢
    simp only [List.map_cons]
    rw [digitsVal_cons]
    simpa [charDigitVal] using ih

theorem charsVal_zeros_append (k : Nat) (b : Str) :
    charsVal (List.replicate k '0' ++ b) = charsVal b := by
  rw [charsVal_append, charsVal_zeros]
  ring

theorem natChars_length_le {n w : Nat} (h : n < 10 ^ w) (hw : 0 < w) :
    (natChars n).length ≤ w := by
  unfold natChars
  rw [List.length_map]
  exact natDigits_length_le h hw

theorem padChars_length {w n : Nat} (h : n < 10 ^ w) (hw : 0 < w) :
    (padChars w n).length = w := by
  unfold padChars
  rw [List.length_append, List.length_replicate]
  have := natChars_length_le h hw
  omega

theorem charsVal_padChars (w n : Nat) : charsVal (padChars w n) = n := by
  unfold padChars
  rw [charsVal_zeros_append, charsVal_natChars]

theorem padChars_all_digit (w n : Nat) : ∀ c ∈ padChars w n, c.isDigit = true := by
  intro c hc
  unfold padChars at hc
  rw [List.mem_append] at hc
  rcases hc with hc | hc
  · rw [List.mem_replicate] at hc
    rw [hc.2]; decide
  · exact natChars_all_digit n c hc

/-! ## Parsing primitives -/

/-- Split a string into its maximal leading run of decimal digits and the rest. -/
def spanDigits : Str → Str × Str
  | [] => ([], [])
  | c :: cs =>
    if c.isDigit then
      let p := spanDigits cs
      (c :: p.1, p.2)
    else ([], c :: cs)

/-- The head of a string is not a digit (vacuously true for the empty string). -/
def headNotDigit : Str → Bool
  | [] => true
  | c :: _ => !c.isDigit

theorem spanDigits_exact (ds rest : Str) (hds : ∀ c ∈ ds, c.isDigit = true)
    (hrest : headNotDigit rest = true) : spanDigits (ds ++ rest) = (ds, rest) := by
  induction ds with
  | nil =>
    cases rest with
    | nil => rfl
    | cons c cs =>
      simp only [List.nil_append, spanDigits]
      simp only [headNotDigit, Bool.not_eq_true'] at hrest
      simp [hrest]
  | cons d ds ih =>
    have hd : d.isDigit = true := hds d (List.mem_cons_self d ds)
    simp only [List.cons_append, spanDigits, hd, if_pos, List.append_eq]
    rw [ih (fun c hc => hds c (List.mem_cons_of_mem d hc))]

/-- Read an optional leading sign (Python number syntax): `-` negates, `+` is ignored. -/
def readSign : Str → Bool × Str
  | [] => (false, [])
  | c :: cs =>
    if c = '-' then (true, cs)
    else if c = '+' then (false, cs)
    else (false, c :: cs)

theorem readSign_no_sign (c : Char) (cs : Str) (h1 : c ≠ '-') (h2 : c ≠ '+') :
    readSign (c :: cs) = (false, c :: cs) := by
  show (if c = '-' then (true, cs)
        else if c = '+' then (false, cs) else (false, c :: cs)) = (false, c :: cs)
  rw [if_neg h1, if_neg h2]

/-! ## Python `Decimal`

A finite `Decimal` value is a sign, a coefficient and an exponent
(`Decimal('11.40')` is sign 0, coefficient 1140, exponent −2).  The
coefficient is a `Nat`, which matches the library's normalisation of the
coefficient digit string (`str(int(intpart + fracpart))`).  Special values
(NaN, infinities) and the context-precision rounding of arithmetic are not
modelled: the pipeline only constructs finite decimals from strings,
negates small in-precision values, and compares them with zero. -/

structure Dec where
  neg : Bool
  mant : Nat
  exp : Int
deriving DecidableEq, Repr

namespace Dec

/-- `Decimal('0')`. -/
def zero : Dec := ⟨false, 0, 0⟩

/-- Numeric comparison `d > 0`. -/
def gtZero (d : Dec) : Bool := !d.neg && d.mant != 0

/-- Numeric comparison `d < 0`. -/
def ltZero (d : Dec) : Bool := d.neg && d.mant != 0

/-- Python unary minus on a `Decimal`: `-Decimal('0')` is `Decimal('0')`
(positive sign), otherwise the sign is flipped. -/
def negate (d : Dec) : Dec :=
  if d.mant = 0 then { d with neg := false } else { d with neg := !d.neg }

/-- The concatenated integer/fraction/exponent parts of the to-scientific-string
algorithm, given the coefficient digit string, the adjusted position `leftdigits`
and the chosen decimal-point position `dotplace`. -/
def bodyCore (ds : Str) (leftdigits dotplace : Int) : Str :=
  (if dotplace ≤ 0 then '0' :: '.' :: (List.replicate (-dotplace).toNat '0' ++ ds)
   else if dotplace ≥ (ds.length : Int) then
     ds ++ List.replicate (dotplace - (ds.length : Int)).toNat '0'
   else ds.take dotplace.toNat ++ '.' :: ds.drop dotplace.toNat)
  ++ (if leftdigits = dotplace then []
      else 'E' :: intCharsSigned (leftdigits - dotplace))

/-- Unsigned part of `str()` of a finite `Decimal` with coefficient digits `ds`
and exponent `e`, following the standard to-scientific-string algorithm used
by Python (`eng=False`). -/
def bodyChars (ds : Str) (e : Int) : Str :=
  bodyCore ds (e + (ds.length : Int))
    (if e ≤ 0 ∧ e + (ds.length : Int) > -6 then e + (ds.length : Int) else 1)

/-- `str()` of a finite `Decimal`. -/
def toChars (d : Dec) : Str :=
  (if d.neg then ['-'] else []) ++ bodyChars (natChars d.mant) d.exp

/-- Last stage of the `Decimal(string)` parser: after the coefficient has been
read into integer digits `ip` and fraction digits `fp`, the rest must be empty
or an exponent clause. -/
def ofCharsExp (ng : Bool) (ip fp : Str) (cs : Str) : Option Dec :=
  if ip.isEmpty && fp.isEmpty then none
  else
    match cs with
    | [] => some ⟨ng, charsVal (ip ++ fp), -(fp.length : Int)⟩
    | c :: rest1 =>
      if c = 'E' ∨ c = 'e' then
        let s2 := readSign rest1
        let p3 := spanDigits s2.2
        if p3.1.isEmpty || !p3.2.isEmpty then none
        else
          let ev : Int := if s2.1 then -(charsVal p3.1 : Int) else (charsVal p3.1 : Int)
          some ⟨ng, charsVal (ip ++ fp), ev + -(fp.length : Int)⟩
      else none

/-- Middle stage of the `Decimal(string)` parser: an optional `.`-prefixed
fraction digit run after the integer digits `ip`. -/
def ofCharsFrac (ng : Bool) (ip : Str) (cs : Str) : Option Dec :=
  match cs with
  | [] => ofCharsExp ng ip [] []
  | c :: rest =>
    if c = '.' then
      let p2 := spanDigits rest
      ofCharsExp ng ip p2.1 p2.2
    else ofCharsExp ng ip [] (c :: rest)

/-- Stage of the `Decimal(string)` parser after the sign: read the integer
digit run. -/
def ofCharsBody (ng : Bool) (cs : Str) : Option Dec :=
  let p1 := spanDigits cs
  ofCharsFrac ng p1.1 p1.2

/-- The `Decimal(string)` constructor on finite numeric strings:
`[sign] digits [. digits] [(E|e) [sign] digits]` with at least one coefficient
digit.  Returns `none` where Python raises `InvalidOperation`. -/
def ofChars (cs : Str) : Option Dec :=
  let s1 := readSign cs
  ofCharsBody s1.1 s1.2

end Dec

theorem digit_ne_minus {c : Char} (h : c.isDigit = true) : c ≠ '-' := by
  intro he; subst he; simp [Char.isDigit] at h

theorem digit_ne_plus {c : Char} (h : c.isDigit = true) : c ≠ '+' := by
  intro he; subst he; simp [Char.isDigit] at h

/-- The first character of a string is a digit. -/
def headDigit : Str → Bool
  | [] => false
  | c :: _ => c.isDigit

theorem headNotDigit_cons (c : Char) (x : Str) : headNotDigit (c :: x) = !c.isDigit := rfl

theorem headDigit_cons (c : Char) (x : Str) : headDigit (c :: x) = c.isDigit := rfl

theorem headDigit_of_all (xs rest : Str) (hx : xs ≠ [])
    (hall : ∀ c ∈ xs, c.isDigit = true) : headDigit (xs ++ rest) = true := by
  cases xs with
  | nil => exact absurd rfl hx
  | cons c tl => exact hall c (List.mem_cons_self c tl)

theorem ofChars_to_body (ng : Bool) (body : Str) (h : headDigit body = true) :
    Dec.ofChars ((if ng then ['-'] else []) ++ body) = Dec.ofCharsBody ng body := by
  cases body with
  | nil => simp [headDigit] at h
  | cons c tl =>
    cases ng with
    | false =>
      simp only [if_neg, Bool.false_eq_true, not_false_iff, List.nil_append]
      unfold Dec.ofChars
      rw [readSign_no_sign c tl (digit_ne_minus h) (digit_ne_plus h)]
    | true => rfl

theorem ofCharsBody_to_frac (ng : Bool) (ip tail : Str) (hip : ∀ c ∈ ip, c.isDigit = true)
    (ht : headNotDigit tail = true) :
    Dec.ofCharsBody ng (ip ++ tail) = Dec.ofCharsFrac ng ip tail := by
  unfold Dec.ofCharsBody
  rw [spanDigits_exact ip tail hip ht]

theorem ofCharsFrac_dot (ng : Bool) (ip fp tail2 : Str) (hfp : ∀ c ∈ fp, c.isDigit = true)
    (ht : headNotDigit tail2 = true) :
    Dec.ofCharsFrac ng ip ('.' :: (fp ++ tail2)) = Dec.ofCharsExp ng ip fp tail2 := by
  show (if '.' = '.' then
      let p2 := spanDigits (fp ++ tail2)
      Dec.ofCharsExp ng ip p2.1 p2.2
    else Dec.ofCharsExp ng ip [] ('.' :: (fp ++ tail2))) = Dec.ofCharsExp ng ip fp tail2
  rw [if_pos rfl, spanDigits_exact fp tail2 hfp ht]

theorem ofCharsFrac_nil (ng : Bool) (ip : Str) :
    Dec.ofCharsFrac ng ip [] = Dec.ofCharsExp ng ip [] [] := rfl

theorem ofCharsFrac_E (ng : Bool) (ip r : Str) :
    Dec.ofCharsFrac ng ip ('E' :: r) = Dec.ofCharsExp ng ip [] ('E' :: r) := by
  show (if 'E' = '.' then
      let p2 := spanDigits r
      Dec.ofCharsExp ng ip p2.1 p2.2
    else Dec.ofCharsExp ng ip [] ('E' :: r)) = Dec.ofCharsExp ng ip [] ('E' :: r)
  rw [if_neg (by decide)]

theorem ofCharsExp_end (ng : Bool) (ip fp : Str) (h : ip ≠ []) :
    Dec.ofCharsExp ng ip fp [] =
      some ⟨ng, charsVal (ip ++ fp), -(fp.length : Int)⟩ := by
  unfold Dec.ofCharsExp
  rw [if_neg (by simp [List.isEmpty_iff, h])]

theorem readSign_intCharsSigned (v : Int) :
    readSign (intCharsSigned v) = (decide (v < 0), natChars v.natAbs) := by
  by_cases hv : v < 0
  · unfold intCharsSigned
    rw [if_pos hv]
    show (if '-' = '-' then (true, natChars v.natAbs)
          else if '-' = '+' then (false, natChars v.natAbs)
          else (false, '-' :: natChars v.natAbs)) = _
    rw [if_pos rfl]
    simp [hv]
  · unfold intCharsSigned
    rw [if_neg hv]
    show (if '+' = '-' then (true, natChars v.natAbs)
          else if '+' = '+' then (false, natChars v.natAbs)
          else (false, '+' :: natChars v.natAbs)) = _
    rw [if_neg (by decide), if_pos rfl]
    simp [hv]

theorem ofCharsExp_E (ng : Bool) (ip fp : Str) (v : Int) (h : ip ≠ []) :
    Dec.ofCharsExp ng ip fp ('E' :: intCharsSigned v) =
      some ⟨ng, charsVal (ip ++ fp), v + -(fp.length : Int)⟩ := by
  unfold Dec.ofCharsExp
  rw [if_neg (by simp [List.isEmpty_iff, h])]
  show (if ('E' = 'E' ∨ 'E' = 'e') then
      let s2 := readSign (intCharsSigned v)
      let p3 := spanDigits s2.2
      if p3.1.isEmpty || !p3.2.isEmpty then none
      else
        let ev : Int := if s2.1 then -(charsVal p3.1 : Int) else (charsVal p3.1 : Int)
        some (Dec.mk ng (charsVal (ip ++ fp)) (ev + -(fp.length : Int)))
    else none) = some (Dec.mk ng (charsVal (ip ++ fp)) (v + -(fp.length : Int)))
  rw [if_pos (Or.inl rfl), readSign_intCharsSigned]
  have hspan : spanDigits (natChars v.natAbs) = (natChars v.natAbs, []) := by
    have := spanDigits_exact (natChars v.natAbs) [] (natChars_all_digit _) (by decide)
    rwa [List.append_nil] at this
  simp only [hspan]
  rw [if_neg (by simp [List.isEmpty_iff, natChars_ne_nil])]
  simp only [charsVal_natChars]
  have hev : (if (decide (v < 0)) = true then -(v.natAbs : Int) else (v.natAbs : Int)) = v := by
    by_cases hv : v < 0
    · rw [if_pos (by simpa using hv)]; omega
    · rw [if_neg (by simpa using hv)]; omega
  rw [hev]

theorem ofCharsFrac_dot_all (ng : Bool) (ip fp : Str) (hfp : ∀ c ∈ fp, c.isDigit = true) :
    Dec.ofCharsFrac ng ip ('.' :: fp) = Dec.ofCharsExp ng ip fp [] := by
  have := ofCharsFrac_dot ng ip fp [] hfp (by decide)
  simpa using this

theorem bodyCore_dot_zero (ds : Str) (dotplace : Int) (h : dotplace ≤ 0) :
    Dec.bodyCore ds dotplace dotplace =
      '0' :: '.' :: (List.replicate (-dotplace).toNat '0' ++ ds) := by
  unfold Dec.bodyCore
  rw [if_pos h, if_pos rfl, List.append_nil]

theorem bodyCore_int_only (ds : Str) (dotplace : Int) (h0 : ¬dotplace ≤ 0)
    (h2 : dotplace ≥ (ds.length : Int)) :
    Dec.bodyCore ds dotplace dotplace =
      ds ++ List.replicate (dotplace - (ds.length : Int)).toNat '0' := by
  unfold Dec.bodyCore
  rw [if_neg h0, if_pos h2, if_pos rfl, List.append_nil]

theorem bodyCore_int_frac (ds : Str) (dotplace : Int) (h0 : ¬dotplace ≤ 0)
    (h2 : ¬dotplace ≥ (ds.length : Int)) :
    Dec.bodyCore ds dotplace dotplace =
      ds.take dotplace.toNat ++ '.' :: ds.drop dotplace.toNat := by
  unfold Dec.bodyCore
  rw [if_neg h0, if_neg h2, if_pos rfl, List.append_nil]

theorem bodyCore_sci_one (ds : Str) (leftdigits : Int) (h2 : (1 : Int) ≥ (ds.length : Int))
    (hne : leftdigits ≠ 1) :
    Dec.bodyCore ds leftdigits 1 =
      (ds ++ List.replicate ((1 : Int) - (ds.length : Int)).toNat '0') ++
        'E' :: intCharsSigned (leftdigits - 1) := by
  unfold Dec.bodyCore
  rw [if_neg (by omega), if_pos h2, if_neg hne]

theorem bodyCore_sci_frac (ds : Str) (leftdigits : Int) (h2 : ¬(1 : Int) ≥ (ds.length : Int))
    (hne : leftdigits ≠ 1) :
    Dec.bodyCore ds leftdigits 1 =
      (ds.take 1 ++ '.' :: ds.drop 1) ++ 'E' :: intCharsSigned (leftdigits - 1) := by
  unfold Dec.bodyCore
  rw [if_neg (by omega), if_neg h2, if_neg hne]
  norm_num

/-- Round trip of the `Decimal` string algorithms: parsing the printed form of
any finite decimal recovers the sign, coefficient and exponent exactly. -/
theorem ofChars_bodyChars (ng : Bool) (m : Nat) (e : Int) :
    Dec.ofChars ((if ng then ['-'] else []) ++ Dec.bodyChars (natChars m) e) =
      some ⟨ng, m, e⟩ := by
  have hne : natChars m ≠ [] := natChars_ne_nil m
  have hdig : ∀ c ∈ natChars m, c.isDigit = true := natChars_all_digit m
  have hval : charsVal (natChars m) = m := charsVal_natChars m
  have hL1 : 1 ≤ (natChars m).length := List.length_pos.mpr hne
  set ds := natChars m with hdsdef
  set L : Int := ((ds.length : Nat) : Int) with hLdef
  have hL1' : (1 : Int) ≤ L := by omega
  unfold Dec.bodyChars
  by_cases hC : e ≤ 0 ∧ e + (ds.length : Int) > -6
  · rw [if_pos hC]
    by_cases h1 : e + L ≤ 0
    · -- 0.000ddd form
      rw [bodyCore_dot_zero ds (e + L) h1]
      rw [ofChars_to_body ng _ (by rw [headDigit_cons]; decide)]
      show Dec.ofCharsBody ng (['0'] ++ ('.' :: (List.replicate (-(e + L)).toNat '0' ++ ds))) =
        some ⟨ng, m, e⟩
      rw [ofCharsBody_to_frac ng ['0'] _ (by decide) (by rw [headNotDigit_cons]; decide)]
      rw [ofCharsFrac_dot_all ng ['0'] _ (by
        intro c hc
        rcases List.mem_append.mp hc with hc | hc
        · rw [(List.mem_replicate.mp hc).2]; decide
        · exact hdig c hc)]
      rw [ofCharsExp_end ng ['0'] _ (by simp)]
      have hm : charsVal (['0'] ++ (List.replicate (-(e + L)).toNat '0' ++ ds)) = m := by
        have hrw : (['0'] ++ (List.replicate (-(e + L)).toNat '0' ++ ds)) =
            List.replicate ((-(e + L)).toNat + 1) '0' ++ ds := by
          rw [List.replicate_succ]
          simp
        rw [hrw, charsVal_zeros_append, hval]
      have hexp : -(((List.replicate (-(e + L)).toNat '0' ++ ds).length : Nat) : Int) = e := by
        rw [List.length_append, List.length_replicate]
        omega
      rw [hm]
      simp only [Option.some.injEq, Dec.mk.injEq, true_and]
      exact hexp
    · by_cases h2 : e + L ≥ L
      · -- pure integer form (e = 0)
        have he : e = 0 := by omega
        rw [bodyCore_int_only ds (e + L) h1 (by omega)]
        have hz : ((e + L) - L).toNat = 0 := by omega
        rw [hz]
        simp only [List.replicate_zero, List.append_nil]
        rw [← List.append_nil ds]
        rw [ofChars_to_body ng _ (headDigit_of_all ds [] hne hdig)]
        rw [ofCharsBody_to_frac ng ds [] hdig (by decide)]
        rw [ofCharsFrac_nil, ofCharsExp_end ng ds [] hne]
        simp only [List.append_nil, hval, List.length_nil]
        simp only [Option.some.injEq, Dec.mk.injEq, true_and]
        omega
      · -- d.ddd form
        rw [bodyCore_int_frac ds (e + L) h1 h2]
        have htk : ds.take (e + L).toNat ≠ [] := by
          rw [Ne, List.take_eq_nil_iff]
          push_neg
          exact ⟨by omega, hne⟩
        have htkdig : ∀ c ∈ ds.take (e + L).toNat, c.isDigit = true := fun c hc =>
          hdig c (List.take_subset _ _ hc)
        have hdrdig : ∀ c ∈ ds.drop (e + L).toNat, c.isDigit = true := fun c hc =>
          hdig c (List.drop_subset _ _ hc)
        rw [ofChars_to_body ng _ (headDigit_of_all _ _ htk htkdig)]
        rw [ofCharsBody_to_frac ng _ _ htkdig (by rw [headNotDigit_cons]; decide)]
        rw [ofCharsFrac_dot_all ng _ _ hdrdig]
        rw [ofCharsExp_end ng _ _ htk]
        rw [List.take_append_drop, hval]
        simp only [Option.some.injEq, Dec.mk.injEq, true_and]
        rw [List.length_drop]
        omega
  · rw [if_neg hC]
    have hne1 : e + L ≠ 1 := by omega
    by_cases h2 : (1 : Int) ≥ L
    · -- single digit, scientific form
      have hLeq : L = 1 := by omega
      rw [bodyCore_sci_one ds (e + L) h2 hne1]
      have hz : ((1 : Int) - L).toNat = 0 := by omega
      rw [hz]
      simp only [List.replicate_zero, List.append_nil]
      rw [ofChars_to_body ng _ (headDigit_of_all ds _ hne hdig)]
      rw [ofCharsBody_to_frac ng ds _ hdig (by rw [headNotDigit_cons]; decide)]
      rw [ofCharsFrac_E, ofCharsExp_E ng ds [] (e + L - 1) hne]
      rw [List.append_nil, hval]
      simp only [Option.some.injEq, Dec.mk.injEq, true_and]
      simp only [List.length_nil]
      omega
    · -- d.dddE±k scientific form
      rw [bodyCore_sci_frac ds (e + L) h2 hne1]
      have htk : ds.take 1 ≠ [] := by
        rw [Ne, List.take_eq_nil_iff]
        push_neg
        exact ⟨by omega, hne⟩
      have htkdig : ∀ c ∈ ds.take 1, c.isDigit = true := fun c hc =>
        hdig c (List.take_subset _ _ hc)
      have hdrdig : ∀ c ∈ ds.drop 1, c.isDigit = true := fun c hc =>
        hdig c (List.drop_subset _ _ hc)
      have hshape : (ds.take 1 ++ '.' :: ds.drop 1) ++ 'E' :: intCharsSigned (e + L - 1) =
          ds.take 1 ++ ('.' :: (ds.drop 1 ++ 'E' :: intCharsSigned (e + L - 1))) := by
        simp [List.append_assoc]
      rw [hshape]
      rw [ofChars_to_body ng _ (headDigit_of_all _ _ htk htkdig)]
      rw [ofCharsBody_to_frac ng _ _ htkdig (by rw [headNotDigit_cons]; decide)]
      rw [ofCharsFrac_dot ng _ _ _ hdrdig (by rw [headNotDigit_cons]; decide)]
      rw [ofCharsExp_E ng _ _ (e + L - 1) htk]
      rw [List.take_append_drop, hval]
      simp only [Option.some.injEq, Dec.mk.injEq, true_and]
      rw [List.length_drop]
      omega

/-- `Decimal(str(d))` recovers `d` exactly, for every finite decimal `d`. -/
theorem dec_roundtrip (d : Dec) : Dec.ofChars (Dec.toChars d) = some d := by
  obtain ⟨ng, m, e⟩ := d
  unfold Dec.toChars
  exact ofChars_bodyChars ng m e

/-! ## Python `date` and `datetime` -/

/-- Gregorian leap-year test. -/
def isLeap (y : Nat) : Bool := (y % 4 == 0 && y % 100 != 0) || y % 400 == 0

/-- Days in a month of a given year. -/
def daysInMonth (y m : Nat) : Nat :=
  if m = 2 then (if isLeap y then 29 else 28)
  else if m = 4 ∨ m = 6 ∨ m = 9 ∨ m = 11 then 30
  else 31

/-- Model of a Python `datetime.date`. -/
structure PyDate where
  year : Nat
  month : Nat
  day : Nat
deriving DecidableEq, Repr

/-- The invariants enforced by the Python `date` constructor. -/
def PyDate.valid (d : PyDate) : Bool :=
  1 ≤ d.year && d.year ≤ 9999 && 1 ≤ d.month && d.month ≤ 12 &&
    1 ≤ d.day && d.day ≤ daysInMonth d.year d.month

/-- `date.isoformat()`: `YYYY-MM-DD`. -/
def PyDate.iso (d : PyDate) : Str :=
  padChars 4 d.year ++ '-' :: (padChars 2 d.month ++ '-' :: padChars 2 d.day)

/-- `date.strftime('%Y%m%d')`, as used when generating transaction ids. -/
def PyDate.ymd (d : PyDate) : Str :=
  padChars 4 d.year ++ padChars 2 d.month ++ padChars 2 d.day

/-- Read exactly `w` decimal digits as a number, returning the rest. -/
def parseFixedNat (w : Nat) (cs : Str) : Option (Nat × Str) :=
  if (cs.take w).length == w && (cs.take w).all Char.isDigit then
    some (charsVal (cs.take w), cs.drop w)
  else none

/-- Expect a specific character and consume it. -/
def expectChar (c : Char) : Str → Option Str
  | [] => none
  | x :: r => if x = c then some r else none

/-- `date.fromisoformat()` (the strict `YYYY-MM-DD` grammar), including the
range validation performed by the `date` constructor. -/
def PyDate.fromIso (cs : Str) : Option PyDate :=
  (parseFixedNat 4 cs).bind fun p1 =>
  (expectChar '-' p1.2).bind fun r2 =>
  (parseFixedNat 2 r2).bind fun p2 =>
  (expectChar '-' p2.2).bind fun r4 =>
  (parseFixedNat 2 r4).bind fun p3 =>
  if p3.2.isEmpty && PyDate.valid ⟨p1.1, p2.1, p3.1⟩ then some ⟨p1.1, p2.1, p3.1⟩
  else none

/-- Model of a Python `datetime.datetime` (naive, no timezone). -/
structure PyDateTime where
  year : Nat
  month : Nat
  day : Nat
  hour : Nat
  minute : Nat
  second : Nat
  microsecond : Nat
deriving DecidableEq, Repr

/-- The invariants enforced by the Python `datetime` constructor. -/
def PyDateTime.valid (t : PyDateTime) : Bool :=
  PyDate.valid ⟨t.year, t.month, t.day⟩ && t.hour ≤ 23 && t.minute ≤ 59 &&
    t.second ≤ 59 && t.microsecond ≤ 999999

/-- `datetime.isoformat()`: `YYYY-MM-DDTHH:MM:SS[.ffffff]`, the fractional part
present exactly when the microsecond field is nonzero. -/
def PyDateTime.iso (t : PyDateTime) : Str :=
  padChars 4 t.year ++ '-' :: (padChars 2 t.month ++ '-' :: (padChars 2 t.day ++
    'T' :: (padChars 2 t.hour ++ ':' :: (padChars 2 t.minute ++ ':' :: (padChars 2 t.second ++
      (if t.microsecond = 0 then [] else '.' :: padChars 6 t.microsecond))))))

/-- `datetime.fromisoformat()` on the strict grammar produced by
`datetime.isoformat()` (optionally without a time part, giving midnight). -/
def PyDateTime.fromIso (cs : Str) : Option PyDateTime :=
  (parseFixedNat 4 cs).bind fun p1 =>
  (expectChar '-' p1.2).bind fun r2 =>
  (parseFixedNat 2 r2).bind fun p2 =>
  (expectChar '-' p2.2).bind fun r4 =>
  (parseFixedNat 2 r4).bind fun p3 =>
  let y := p1.1
  let mo := p2.1
  let dy := p3.1
  match p3.2 with
  | [] =>
    if PyDateTime.valid ⟨y, mo, dy, 0, 0, 0, 0⟩ then some ⟨y, mo, dy, 0, 0, 0, 0⟩ else none
  | c :: r5 =>
    if c = 'T' then
      (parseFixedNat 2 r5).bind fun q1 =>
      (expectChar ':' q1.2).bind fun s2 =>
      (parseFixedNat 2 s2).bind fun q2 =>
      (expectChar ':' q2.2).bind fun s4 =>
      (parseFixedNat 2 s4).bind fun q3 =>
      match q3.2 with
      | [] =>
        if PyDateTime.valid ⟨y, mo, dy, q1.1, q2.1, q3.1, 0⟩ then
          some ⟨y, mo, dy, q1.1, q2.1, q3.1, 0⟩
        else none
      | c2 :: r6 =>
        if c2 = '.' then
          (parseFixedNat 6 r6).bind fun q4 =>
          if q4.2.isEmpty && PyDateTime.valid ⟨y, mo, dy, q1.1, q2.1, q3.1, q4.1⟩ then
            some ⟨y, mo, dy, q1.1, q2.1, q3.1, q4.1⟩
          else none
        else none
    else none

theorem take_append_of_length (l1 l2 : Str) (w : Nat) (h : l1.length = w) :
    (l1 ++ l2).take w = l1 := by
  subst h
  exact List.take_left _ _

theorem drop_append_of_length (l1 l2 : Str) (w : Nat) (h : l1.length = w) :
    (l1 ++ l2).drop w = l2 := by
  subst h
  exact List.drop_left _ _

theorem parseFixedNat_pad (w n : Nat) (rest : Str) (hn : n < 10 ^ w) (hw : 0 < w) :
    parseFixedNat w (padChars w n ++ rest) = some (n, rest) := by
  unfold parseFixedNat
  have hlen := padChars_length hn hw
  rw [take_append_of_length _ _ _ hlen, drop_append_of_length _ _ _ hlen, hlen]
  rw [if_pos (by
    simp only [beq_self_eq_true, Bool.true_and]
    exact List.all_eq_true.mpr (padChars_all_digit w n))]
  rw [charsVal_padChars]

theorem expectChar_cons (c : Char) (r : Str) : expectChar c (c :: r) = some r := by
  show (if c = c then some r else none) = some r
  rw [if_pos rfl]

theorem daysInMonth_le (y m : Nat) : daysInMonth y m ≤ 31 := by
  unfold daysInMonth
  split
  · split <;> omega
  · split <;> omega

/-- `date.fromisoformat(d.isoformat())` recovers every valid date `d`. -/
theorem pydate_roundtrip (d : PyDate) (h : d.valid = true) :
    PyDate.fromIso d.iso = some d := by
  obtain ⟨y, mo, dy⟩ := d
  simp only [PyDate.valid, Bool.and_eq_true, decide_eq_true_eq] at h
  obtain ⟨⟨⟨⟨⟨h1, h2⟩, h3⟩, h4⟩, h5⟩, h6⟩ := h
  have hdm : daysInMonth y mo ≤ 31 := daysInMonth_le y mo
  unfold PyDate.iso PyDate.fromIso
  rw [parseFixedNat_pad 4 y _ (by omega) (by norm_num)]
  simp only [Option.some_bind]
  rw [expectChar_cons]
  simp only [Option.some_bind]
  rw [parseFixedNat_pad 2 mo _ (by omega) (by norm_num)]
  simp only [Option.some_bind]
  rw [expectChar_cons]
  simp only [Option.some_bind]
  have hnil : padChars 2 dy ++ ([] : Str) = padChars 2 dy := List.append_nil _
  rw [← hnil, parseFixedNat_pad 2 dy [] (by omega) (by norm_num)]
  simp only [Option.some_bind]
  rw [if_pos]
  simp only [List.isEmpty_nil, Bool.true_and]
  simp only [PyDate.valid, Bool.and_eq_true, decide_eq_true_eq]
  exact ⟨⟨⟨⟨⟨h1, h2⟩, h3⟩, h4⟩, h5⟩, h6⟩

/-- `datetime.fromisoformat(t.isoformat())` recovers every valid datetime `t`. -/
theorem pydatetime_roundtrip (t : PyDateTime) (h : t.valid = true) :
    PyDateTime.fromIso t.iso = some t := by
  obtain ⟨y, mo, dy, hh, mi, ss, us⟩ := t
  have hv := h
  simp only [PyDateTime.valid, PyDate.valid, Bool.and_eq_true, decide_eq_true_eq] at h
  obtain ⟨⟨⟨⟨hd, hh23⟩, hm59⟩, hs59⟩, hu⟩ := h
  obtain ⟨⟨⟨⟨⟨h1, h2⟩, h3⟩, h4⟩, h5⟩, h6⟩ := hd
  have hdm : daysInMonth y mo ≤ 31 := daysInMonth_le y mo
  unfold PyDateTime.iso PyDateTime.fromIso
  rw [parseFixedNat_pad 4 y _ (by omega) (by norm_num)]
  simp only [Option.some_bind]
  rw [expectChar_cons]
  simp only [Option.some_bind]
  rw [parseFixedNat_pad 2 mo _ (by omega) (by norm_num)]
  simp only [Option.some_bind]
  rw [expectChar_cons]
  simp only [Option.some_bind]
  rw [parseFixedNat_pad 2 dy _ (by omega) (by norm_num)]
  simp only [Option.some_bind]
  simp only [if_true]
  rw [parseFixedNat_pad 2 hh _ (by omega) (by norm_num)]
  simp only [Option.some_bind]
  rw [expectChar_cons]
  simp only [Option.some_bind]
  rw [parseFixedNat_pad 2 mi _ (by omega) (by norm_num)]
  simp only [Option.some_bind]
  rw [expectChar_cons]
  simp only [Option.some_bind]
  by_cases hus : us = 0
  · subst hus
    rw [if_pos rfl]
    have hnil : padChars 2 ss ++ ([] : Str) = padChars 2 ss := List.append_nil _
    rw [hnil, ← hnil, parseFixedNat_pad 2 ss [] (by omega) (by norm_num)]
    simp only [Option.some_bind]
    rw [if_pos hv]
  · rw [if_neg hus]
    rw [parseFixedNat_pad 2 ss _ (by omega) (by norm_num)]
    simp only [Option.some_bind]
    simp only [if_true]
    have hnil : padChars 6 us ++ ([] : Str) = padChars 6 us := List.append_nil _
    rw [← hnil, parseFixedNat_pad 6 us [] (by omega) (by norm_num)]
    simp only [Option.some_bind]
    rw [if_pos]
    simp only [List.isEmpty_nil, Bool.true_and]
    exact hv

/-! ## MD5 (used for the 4-hex-digit description digest in transaction ids)

A byte is a `Nat` below 256; 32-bit words are `Nat`s reduced modulo `2^32`. -/

/-- Reduce modulo `2^32`. -/
def u32 (n : Nat) : Nat := n % 4294967296

/-- 32-bit left rotation (input assumed below `2^32`). -/
def rotl32 (x s : Nat) : Nat := u32 ((x <<< s) ||| (x >>> (32 - s)))

/-- 32-bit bitwise complement. -/
def not32 (x : Nat) : Nat := 4294967295 ^^^ x

/-- Little-endian byte decomposition, `k` bytes. -/
def leBytes : Nat → Nat → List Nat
  | 0, _ => []
  | k + 1, n => n % 256 :: leBytes k (n / 256)

/-- The MD5 sine-derived round constants. -/
def md5K : List Nat := [
  3614090360, 3905402710, 606105819, 3250441966,
  4118548399, 1200080426, 2821735955, 4249261313,
  1770035416, 2336552879, 4294925233, 2304563134,
  1804603682, 4254626195, 2792965006, 1236535329,
  4129170786, 3225465664, 643717713, 3921069994,
  3593408605, 38016083, 3634488961, 3889429448,
  568446438, 3275163606, 4107603335, 1163531501,
  2850285829, 4243563512, 1735328473, 2368359562,
  4294588738, 2272392833, 1839030562, 4259657740,
  2763975236, 1272893353, 4139469664, 3200236656,
  681279174, 3936430074, 3572445317, 76029189,
  3654602809, 3873151461, 530742520, 3299628645,
  4096336452, 1126891415, 2878612391, 4237533241,
  1700485571, 2399980690, 4293915773, 2240044497,
  1873313359, 4264355552, 2734768916, 1309151649,
  4149444226, 3174756917, 718787259, 3951481745
]

/-- The MD5 per-round left-rotation amounts. -/
def md5shifts : List Nat := [
  7, 12, 17, 22, 7, 12, 17, 22,
  7, 12, 17, 22, 7, 12, 17, 22,
  5, 9, 14, 20, 5, 9, 14, 20,
  5, 9, 14, 20, 5, 9, 14, 20,
  4, 11, 16, 23, 4, 11, 16, 23,
  4, 11, 16, 23, 4, 11, 16, 23,
  6, 10, 15, 21, 6, 10, 15, 21,
  6, 10, 15, 21, 6, 10, 15, 21
]

/-- MD5 padding: `0x80`, zeros to 56 mod 64, then the 64-bit little-endian
bit length. -/
def md5pad (msg : List Nat) : List Nat :=
  msg ++ 128 :: List.replicate ((120 - ((msg.length + 1) % 64)) % 64) 0 ++
    leBytes 8 (8 * msg.length)

/-- Split a byte list into 64-byte chunks (fuel-driven; `fuel ≥ length` suffices). -/
def chunksOf : Nat → List Nat → List (List Nat)
  | _, [] => []
  | 0, _ => []
  | f + 1, l => l.take 64 :: chunksOf f (l.drop 64)

/-- The `i`-th little-endian 32-bit word of a 64-byte block. -/
def wordAt (block : List Nat) (i : Nat) : Nat :=
  block.getD (4 * i) 0 + 256 * block.getD (4 * i + 1) 0 +
    65536 * block.getD (4 * i + 2) 0 + 16777216 * block.getD (4 * i + 3) 0

/-- The MD5 nonlinear function for round `i`. -/
def md5F (i b c d : Nat) : Nat :=
  if i < 16 then (b &&& c) ||| (not32 b &&& d)
  else if i < 32 then (d &&& b) ||| (not32 d &&& c)
  else if i < 48 then b ^^^ c ^^^ d
  else c ^^^ (b ||| not32 d)

/-- The MD5 message-word index for round `i`. -/
def md5g (i : Nat) : Nat :=
  if i < 16 then i
  else if i < 32 then (5 * i + 1) % 16
  else if i < 48 then (3 * i + 5) % 16
  else (7 * i) % 16

/-- One MD5 compression-function application. -/
def md5block (block : List Nat) (st : Nat × Nat × Nat × Nat) : Nat × Nat × Nat × Nat :=
  let fin := (List.range 64).foldl (fun (s : Nat × Nat × Nat × Nat) i =>
    let f := u32 (md5F i s.2.1 s.2.2.1 s.2.2.2 + s.1 + md5K.getD i 0 +
      wordAt block (md5g i))
    (s.2.2.2, u32 (s.2.1 + rotl32 f (md5shifts.getD i 0)), s.2.1, s.2.2.1)) st
  (u32 (st.1 + fin.1), u32 (st.2.1 + fin.2.1), u32 (st.2.2.1 + fin.2.2.1),
    u32 (st.2.2.2 + fin.2.2.2))

/-- MD5 digest of a byte list, as 16 bytes. -/
def md5digest (msg : List Nat) : List Nat :=
  let padded := md5pad msg
  let st := (chunksOf padded.length padded).foldl (fun st bl => md5block bl st)
    (1732584193, 4023233417, 2562383102, 271733878)
  leBytes 4 st.1 ++ leBytes 4 st.2.1 ++ leBytes 4 st.2.2.1 ++ leBytes 4 st.2.2.2

/-- Two lowercase hex digit characters of a byte. -/
def hexByte (b : Nat) : Str := [Nat.digitChar (b / 16), Nat.digitChar (b % 16)]

/-- `hashlib.md5(x).hexdigest()`. -/
def md5hex (msg : List Nat) : Str := ((md5digest msg).map hexByte).flatten

/-- UTF-8 encoding of one code point. -/
def utf8Char (n : Nat) : List Nat :=
  if n < 128 then [n]
  else if n < 2048 then [192 ||| (n >>> 6), 128 ||| (n &&& 63)]
  else if n < 65536 then
    [224 ||| (n >>> 12), 128 ||| ((n >>> 6) &&& 63), 128 ||| (n &&& 63)]
  else
    [240 ||| (n >>> 18), 128 ||| ((n >>> 12) &&& 63), 128 ||| ((n >>> 6) &&& 63),
      128 ||| (n &&& 63)]

/-- `s.encode()`: UTF-8 bytes of a string. -/
def utf8Encode (cs : Str) : List Nat := (cs.map (fun c => utf8Char c.toNat)).flatten

set_option maxRecDepth 100000 in
theorem md5_vector_empty :
    md5hex (utf8Encode "".toList) = "d41d8cd98f00b204e9800998ecf8427e".toList := by decide

set_option maxRecDepth 100000 in
theorem md5_vector_abc :
    md5hex (utf8Encode "abc".toList) = "900150983cd24fb0d6963f7d28e17f72".toList := by decide

/-! ## Transaction data model (`src/parsers/base.py`) -/

/-- `TransactionType`: type of transaction based on money flow. -/
inductive TransactionType
  | debit
  | credit
  | transfer
deriving DecidableEq, Repr

/-- The `.value` string of a `TransactionType`. -/
def TransactionType.value : TransactionType → Str
  | .debit => "debit".toList
  | .credit => "credit".toList
  | .transfer => "transfer".toList

/-- `TransactionType(value)`: enum lookup by value, `none` when Python raises. -/
def TransactionType.ofValue (cs : Str) : Option TransactionType :=
  if cs = "debit".toList then some .debit
  else if cs = "credit".toList then some .credit
  else if cs = "transfer".toList then some .transfer
  else none

/-- `AccountType`: type of bank account. -/
inductive AccountType
  | creditCard
  | savings
  | transaction
  | loan
  | unknown
deriving DecidableEq, Repr

/-- The `.value` string of an `AccountType`. -/
def AccountType.value : AccountType → Str
  | .creditCard => "credit_card".toList
  | .savings => "savings".toList
  | .transaction => "transaction".toList
  | .loan => "loan".toList
  | .unknown => "unknown".toList

/-- `AccountType(value)`: enum lookup by value, `none` when Python raises. -/
def AccountType.ofValue (cs : Str) : Option AccountType :=
  if cs = "credit_card".toList then some .creditCard
  else if cs = "savings".toList then some .savings
  else if cs = "transaction".toList then some .transaction
  else if cs = "loan".toList then some .loan
  else if cs = "unknown".toList then some .unknown
  else none

/-- `RawTransaction`: audit record of one source CSV row. -/
structure RawTransaction where
  sourceFile : Str
  sourceBank : Str
  rowNumber : Nat
  rawFields : List (Str × Str)
  parsedAt : PyDateTime
  parseErrors : List Str
deriving DecidableEq, Repr

/-- `Transaction`: the normalized transaction record produced by every parser. -/
structure Transaction where
  id : Str
  date : PyDate
  amount : Dec
  description : Str
  accountId : Str
  accountType : AccountType
  bankSource : Str
  sourceFile : Str
  balance : Option Dec
  originalCategory : Option Str
  category : Option Str
  transactionType : TransactionType
  merchantName : Option Str
  location : Option Str
  foreignAmount : Option Dec
  foreignCurrency : Option Str
  rawTransaction : Option RawTransaction
  createdAt : PyDateTime
deriving DecidableEq, Repr

/-- A Python value that is either still a string or already a `datetime`
(the type of the mutable `parsed_at` entry of a raw-transaction dict). -/
inductive PyVal
  | str (s : Str)
  | dt (t : PyDateTime)
deriving DecidableEq, Repr

/-- The dictionary produced by `RawTransaction.to_dict` (and consumed, after
mutation, by `Transaction.from_dict`). -/
structure RawDict where
  sourceFile : Str
  sourceBank : Str
  rowNumber : Nat
  rawFields : List (Str × Str)
  parsedAt : PyVal
  parseErrors : List Str
deriving DecidableEq, Repr

/-- The dictionary produced by `Transaction.to_dict`: every field serialised to
strings/None, with an optional embedded raw-transaction dict. -/
structure TransDict where
  id : Str
  date : Str
  amount : Str
  description : Str
  accountId : Str
  accountType : Str
  bankSource : Str
  sourceFile : Str
  balance : Option Str
  originalCategory : Option Str
  category : Option Str
  transactionType : Str
  merchantName : Option Str
  location : Option Str
  foreignAmount : Option Str
  foreignCurrency : Option Str
  createdAt : Str
  rawTransaction : Option RawDict
deriving DecidableEq, Repr

/-- `RawTransaction.to_dict`: `asdict(self)` with `parsed_at` replaced by its
isoformat string. -/
def RawTransaction.toDict (r : RawTransaction) : RawDict :=
  ⟨r.sourceFile, r.sourceBank, r.rowNumber, r.rawFields, PyVal.str r.parsedAt.iso,
    r.parseErrors⟩

/-- `Transaction.to_dict`. -/
def Transaction.toDict (t : Transaction) : TransDict where
  id := t.id
  date := t.date.iso
  amount := Dec.toChars t.amount
  description := t.description
  accountId := t.accountId
  accountType := t.accountType.value
  bankSource := t.bankSource
  sourceFile := t.sourceFile
  balance := t.balance.map Dec.toChars
  originalCategory := t.originalCategory
  category := t.category
  transactionType := t.transactionType.value
  merchantName := t.merchantName
  location := t.location
  foreignAmount := t.foreignAmount.map Dec.toChars
  foreignCurrency := t.foreignCurrency
  createdAt := t.createdAt.iso
  rawTransaction := t.rawTransaction.map RawTransaction.toDict

/-- `Decimal(data[k]) if data.get(k) else None`: an absent or empty (falsy)
string becomes `None`; a nonempty string must parse or the call raises. -/
def optDec : Option Str → Option (Option Dec)
  | none => some none
  | some cs => if cs.isEmpty then some none else (Dec.ofChars cs).map some

/-- The pure construction part of `Transaction.from_dict`, given the already
popped dict and the rebuilt raw transaction; `none` when any conversion raises. -/
def Transaction.buildFromDict (d : TransDict) (raw : Option RawTransaction) :
    Option Transaction :=
  (PyDate.fromIso d.date).bind fun dte =>
  (Dec.ofChars d.amount).bind fun amt =>
  (AccountType.ofValue d.accountType).bind fun acct =>
  (optDec d.balance).bind fun bal =>
  (TransactionType.ofValue d.transactionType).bind fun tt =>
  (optDec d.foreignAmount).bind fun famt =>
  (PyDateTime.fromIso d.createdAt).map fun cat =>
  { id := d.id, date := dte, amount := amt, description := d.description,
    accountId := d.accountId, accountType := acct, bankSource := d.bankSource,
    sourceFile := d.sourceFile, balance := bal,
    originalCategory := d.originalCategory, category := d.category,
    transactionType := tt, merchantName := d.merchantName, location := d.location,
    foreignAmount := famt, foreignCurrency := d.foreignCurrency,
    rawTransaction := raw, createdAt := cat }

/-- `Transaction.from_dict`, with its side effects made explicit: the result is
(the returned transaction or `none` if the call raises, the post-call state of
the caller's dict, the post-call state of the nested raw dict object if one was
present).  The `raw_transaction` key is popped unconditionally; when a raw dict
is present its `parsed_at` entry is overwritten in place with the parsed
`datetime` before the `RawTransaction` is rebuilt. -/
def Transaction.fromDictFull (d : TransDict) :
    Option Transaction × TransDict × Option RawDict :=
  let popped := { d with rawTransaction := none }
  match d.rawTransaction with
  | none => (Transaction.buildFromDict popped none, popped, none)
  | some r =>
    match r.parsedAt with
    | PyVal.str s =>
      match PyDateTime.fromIso s with
      | none => (none, popped, some r)
      | some pdt =>
        let r2 := { r with parsedAt := PyVal.dt pdt }
        (Transaction.buildFromDict popped
          (some ⟨r.sourceFile, r.sourceBank, r.rowNumber, r.rawFields, pdt,
            r.parseErrors⟩), popped, some r2)
    | PyVal.dt _ => (none, popped, some r)

/-- `Transaction.from_dict`: the returned value. -/
def Transaction.fromDict (d : TransDict) : Option Transaction :=
  (Transaction.fromDictFull d).1

theorem transactionTypeValue_roundtrip (x : TransactionType) :
    TransactionType.ofValue (TransactionType.value x) = some x := by
  cases x <;> decide

theorem accountTypeValue_roundtrip (x : AccountType) :
    AccountType.ofValue (AccountType.value x) = some x := by
  cases x <;> decide

theorem bodyCore_ne_nil (ds : Str) (ld dp : Int) (h : ds ≠ []) :
    Dec.bodyCore ds ld dp ≠ [] := by
  unfold Dec.bodyCore
  intro hemp
  rcases List.append_eq_nil.mp hemp with ⟨h1, _⟩
  revert h1
  split
  · simp
  · split
    · intro h1
      exact h (List.append_eq_nil.mp h1).1
    · intro h1
      have := (List.append_eq_nil.mp h1).2
      simp at this

theorem toChars_ne_nil (d : Dec) : Dec.toChars d ≠ [] := by
  unfold Dec.toChars Dec.bodyChars
  intro hemp
  exact bodyCore_ne_nil (natChars d.mant) _ _ (natChars_ne_nil d.mant)
    (List.append_eq_nil.mp hemp).2

theorem optDec_map_toChars (b : Option Dec) :
    optDec (b.map Dec.toChars) = some b := by
  cases b with
  | none => rfl
  | some x =>
    simp only [Option.map_some', optDec]
    rw [if_neg (by simp [List.isEmpty_iff, toChars_ne_nil x])]
    rw [dec_roundtrip]
    rfl

theorem buildFromDict_toDict (t : Transaction) (raw : Option RawTransaction)
    (hd : t.date.valid = true) (hc : t.createdAt.valid = true) :
    Transaction.buildFromDict { (Transaction.toDict t) with rawTransaction := none } raw
      = some { t with rawTransaction := raw } := by
  unfold Transaction.buildFromDict Transaction.toDict
  dsimp only
  rw [pydate_roundtrip t.date hd]
  simp only [Option.some_bind]
  rw [dec_roundtrip]
  simp only [Option.some_bind]
  rw [accountTypeValue_roundtrip]
  simp only [Option.some_bind]
  rw [optDec_map_toChars]
  simp only [Option.some_bind]
  rw [transactionTypeValue_roundtrip]
  simp only [Option.some_bind]
  rw [optDec_map_toChars]
  simp only [Option.some_bind]
  rw [pydatetime_roundtrip t.createdAt hc]
  simp only [Option.map_some']

/-- C5: `from_dict(to_dict(t))` returns `t` itself, in every field — the
embedded raw transaction, optional decimal fields, enums, date and created-at
timestamp included — for every transaction whose date, created-at and
raw-parsed-at timestamps are valid Python values. -/
theorem fromDict_toDict (t : Transaction)
    (hd : t.date.valid = true) (hc : t.createdAt.valid = true)
    (hrv : t.rawTransaction.all (fun r => r.parsedAt.valid) = true) :
    Transaction.fromDict (Transaction.toDict t) = some t := by
  have hr : ∀ r, t.rawTransaction = some r → r.parsedAt.valid = true := by
    intro r hr0
    rw [hr0] at hrv
    simpa [Option.all] using hrv
  unfold Transaction.fromDict Transaction.fromDictFull
  cases hraw : t.rawTransaction with
  | none =>
    have hmap : (Transaction.toDict t).rawTransaction = none := by
      unfold Transaction.toDict
      rw [hraw]
      rfl
    rw [hmap]
    dsimp only
    rw [buildFromDict_toDict t none hd hc]
    rw [← hraw]
  | some r0 =>
    have hmap : (Transaction.toDict t).rawTransaction = some (RawTransaction.toDict r0) := by
      unfold Transaction.toDict
      rw [hraw]
      rfl
    rw [hmap]
    unfold RawTransaction.toDict
    dsimp only
    rw [pydatetime_roundtrip r0.parsedAt (hr r0 hraw)]
    dsimp only
    rw [buildFromDict_toDict t (some r0) hd hc]
    rw [← hraw]

/-! ## Shared parser primitives (`BaseParser` helpers) -/

/-- A character stripped by Python `str.strip()`. -/
def isPySpace (c : Char) : Bool :=
  c = ' ' || c = '\t' || c = '\n' || c = '\r' || c = '\x0b' || c = '\x0c'

/-- Python `str.strip()`. -/
def pyStrip (cs : Str) : Str :=
  ((cs.dropWhile isPySpace).reverse.dropWhile isPySpace).reverse

/-- Python `needle in hay` substring test. -/
def containsSub (hay needle : Str) : Bool :=
  hay.tails.any (fun t => needle.isPrefixOf t)

/-- Python `str.upper()` (ASCII). -/
def pyUpper (cs : Str) : Str := cs.map Char.toUpper

/-- Python `str.lower()` (ASCII). -/
def pyLower (cs : Str) : Str := cs.map Char.toLower

/-- The parenthesised-negative step of `BaseParser._parse_amount`: `(…)`
becomes a leading minus. -/
def parenNegate (cleaned : Str) : Str :=
  if cleaned.head? = some '(' && cleaned.getLast? = some ')' then
    '-' :: (cleaned.drop 1).dropLast
  else cleaned

/-- `BaseParser._parse_amount`: strip, drop `$`/`,`/space characters, turn a
`(…)`-parenthesised value into a leading minus, and parse as `Decimal`.
Empty/whitespace input gives `Decimal('0')`; `none` models a raised
`InvalidOperation`. -/
def parseAmount (cs : Str) : Option Dec :=
  if pyStrip cs = [] then some Dec.zero
  else
    Dec.ofChars (parenNegate
      ((pyStrip cs).filter (fun c => !(c = '$' || c = ',' || c = ' '))))

/-- `CBAParser._parse_cba_amount`: strip, drop `"`/`,`/space characters, parse
as `Decimal` (explicit `+`/`-` prefixes allowed by the `Decimal` grammar). -/
def parseCbaAmount (cs : Str) : Option Dec :=
  if pyStrip cs = [] then some Dec.zero
  else Dec.ofChars ((pyStrip cs).filter (fun c => !(c = '"' || c = ',' || c = ' ')))

/-- Read one or two digits (the `strptime` `%d` / `%m` directives). -/
def parseNat12 : Str → Option (Nat × Str)
  | [] => none
  | [c] => if c.isDigit then some (charsVal [c], []) else none
  | c1 :: c2 :: r =>
    if c1.isDigit then
      if c2.isDigit then some (charsVal [c1, c2], r)
      else some (charsVal [c1], c2 :: r)
    else none

/-- The calendar validation performed by `strptime`/the `date` constructor. -/
def validYMD (y mo dy : Nat) : Bool :=
  1 ≤ y && y ≤ 9999 && 1 ≤ mo && mo ≤ 12 && 1 ≤ dy && dy ≤ daysInMonth y mo

/-- `datetime.strptime(s, '%d/%m/%Y').date()`: day and month of one or two
digits, a four-digit year, calendar-validated.  `none` models a raised
`ValueError`. -/
def strptimeDMY (cs : Str) : Option PyDate :=
  (parseNat12 cs).bind fun p1 =>
  (expectChar '/' p1.2).bind fun r2 =>
  (parseNat12 r2).bind fun p2 =>
  (expectChar '/' p2.2).bind fun r4 =>
  (parseFixedNat 4 r4).bind fun p3 =>
  if p3.2.isEmpty && validYMD p3.1 p2.1 p1.1 then some ⟨p3.1, p2.1, p1.1⟩ else none

/-- Three-letter month abbreviation (case-insensitive, the `%b` directive). -/
def monthAbbrev : Str → Option (Nat × Str)
  | a :: b :: c :: r =>
    let k := [a.toLower, b.toLower, c.toLower]
    if k = "jan".toList then some (1, r)
    else if k = "feb".toList then some (2, r)
    else if k = "mar".toList then some (3, r)
    else if k = "apr".toList then some (4, r)
    else if k = "may".toList then some (5, r)
    else if k = "jun".toList then some (6, r)
    else if k = "jul".toList then some (7, r)
    else if k = "aug".toList then some (8, r)
    else if k = "sep".toList then some (9, r)
    else if k = "oct".toList then some (10, r)
    else if k = "nov".toList then some (11, r)
    else if k = "dec".toList then some (12, r)
    else none
  | _ => none

/-- `datetime.strptime(s, '%d %b %Y').date()` (the Macquarie date format). -/
def strptimeDbY (cs : Str) : Option PyDate :=
  (parseNat12 cs).bind fun p1 =>
  (expectChar ' ' p1.2).bind fun r2 =>
  (monthAbbrev r2).bind fun p2 =>
  (expectChar ' ' p2.2).bind fun r4 =>
  (parseFixedNat 4 r4).bind fun p3 =>
  if p3.2.isEmpty && validYMD p3.1 p2.1 p1.1 then some ⟨p3.1, p2.1, p1.1⟩ else none

/-- The 4-hex-character MD5 digest of a description
(`hashlib.md5(description.encode()).hexdigest()[:4]`). -/
def descHash4 (desc : Str) : Str := (md5hex (utf8Encode desc)).take 4

/-- The readable description snippet: first 8 alphanumeric characters,
uppercased, `TXN` when empty
(`re.sub(r'[^a-zA-Z0-9]', '', description)[:8].upper() or 'TXN'`). -/
def descSnippet (desc : Str) : Str :=
  let snip := pyUpper ((desc.filter Char.isAlphanum).take 8)
  if snip = [] then "TXN".toList else snip

/-- `BaseParser._generate_transaction_id`:
`{bank}_{date:%Y%m%d}_{account_id}_{amount}_{snippet}-{hash4}_{occurrence}`. -/
def genTransactionId (bank : Str) (d : PyDate) (accountId : Str) (amount : Dec)
    (desc : Str) (occurrence : Nat) : Str :=
  bank ++ '_' :: (d.ymd ++ '_' :: (accountId ++ '_' :: (Dec.toChars amount ++
    '_' :: (descSnippet desc ++ '-' :: (descHash4 desc ++ '_' :: natChars occurrence)))))

/-- The intermediate per-row record built by the ANZ parser's first pass
(the `data` dict of `_parse_row_data`). -/
structure RowData where
  date : PyDate
  amount : Dec
  description : Str
  accountId : Str
  accountType : AccountType
  balance : Option Dec
  originalCategory : Option Str
  transactionType : TransactionType
  merchantName : Option Str
  location : Option Str
  rawTransaction : RawTransaction
deriving DecidableEq, Repr

/-- The signature used by `_assign_occurrence_numbers`:
`(date.isoformat(), str(account_id), str(amount), description)`. -/
def RowData.signature (r : RowData) : Str × Str × Str × Str :=
  (r.date.iso, r.accountId, Dec.toChars r.amount, r.description)

/-- The occurrence-assignment fold of `_assign_occurrence_numbers`, carrying the
`occurrence_counter` as a function from signatures to counts. -/
def occGo (counter : Str × Str × Str × Str → Nat) :
    List RowData → List (RowData × Nat)
  | [] => []
  | r :: rest =>
    let n := counter r.signature + 1
    (r, n) :: occGo (fun s => if s = r.signature then n else counter s) rest

/-- `BaseParser._assign_occurrence_numbers`: pair each record with the 1-based
rank of its signature so far. -/
def assignOccurrenceNumbers (rows : List RowData) : List (RowData × Nat) :=
  occGo (fun _ => 0) rows

/-! ## CSV file model

A file is modelled by the path parts the parsers inspect, a readability flag
(false models a file-level I/O or encoding failure), the raw first line used
for header sniffing, and the list of parsed CSV records (header row included
for header-based dialects). -/

structure CsvFile where
  dirName : Str
  stem : Str
  ext : Str
  readable : Bool
  firstLine : Str
  rawRows : List (List Str)
deriving DecidableEq, Repr

/-- `str(file_path)`. -/
def CsvFile.pathStr (f : CsvFile) : Str := f.dirName ++ '/' :: (f.stem ++ f.ext)

/-- The header row seen by `csv.DictReader`. -/
def CsvFile.headerRow (f : CsvFile) : List Str := f.rawRows.headD []

/-- The data rows seen by `csv.DictReader` (everything after the header). -/
def CsvFile.dataRows (f : CsvFile) : List (List Str) := f.rawRows.tail

/-- `row.get(col, '')` on a `DictReader` row: an unknown column gives the
default `''`; a column beyond a short row gives Python `None`, modelled as
`none` (a subsequent `.strip()` then raises). -/
def dictRowGet (header row : List Str) (col : Str) : Option Str :=
  match header.findIdx? (fun h => decide (h = col)) with
  | none => some []
  | some i => row.get? i

/-- `row.get(col, '').strip()`; `none` models the `AttributeError` raised when
the cell value is Python `None`. -/
def getStripped (header row : List Str) (col : Str) : Option Str :=
  (dictRowGet header row col).map pyStrip

/-- `dict(row)` for a header-keyed row, as an association list.  (The `None`
padding `DictReader` adds for short rows is not modelled; the pairs are the
header names zipped with the present cells.) -/
def dictPairs (header row : List Str) : List (Str × Str) := header.zip row

/-- `dict(row)` for a headerless row: `{str(i): value}`. -/
def idxPairs (row : List Str) : List (Str × Str) :=
  row.enum.map (fun p => (natChars p.1, p.2))

/-- Outcome of converting one CSV row: an exception (caught and logged by the
parse loop), a silent skip (structurally empty row), or a transaction. -/
inductive RowResult
  | err
  | skip
  | ok (t : Transaction)
deriving DecidableEq, Repr

/-! ## Westpac parser (`src/parsers/westpac.py`) -/

/-- `WestpacParser._detect_account_type`: exactly four digits is a credit
card, longer than eight characters is savings, otherwise unknown. -/
def westpacAccountType (aid : Str) : AccountType :=
  if aid.length = 4 && aid.all Char.isDigit then AccountType.creditCard
  else if 8 < aid.length then AccountType.savings
  else AccountType.unknown

/-- `WestpacParser._is_transfer`: category `PAYMENT` and an uppercased
transfer keyword in the narrative. -/
def westpacIsTransfer (narrative category : Str) : Bool :=
  category = "PAYMENT".toList &&
    ((["TFR FROM", "TFR TO", "TRANSFER", "TFR WESTPAC", "TFR ALTITUDE"]).map
      String.toList).any (fun kw => containsSub (pyUpper narrative) kw)

/-- The country codes of the Westpac location suffix patterns. -/
def westpacLocCodes : List Str :=
  (["AUS", "USA", "GBR", "NZL", "SGP", "HKG", "JPN", "CHN"]).map String.toList

/-- `WestpacParser._parse_narrative`: when the narrative ends in whitespace
followed by a country code, the code is the location and the stripped prefix
the merchant; otherwise the whole narrative is the merchant.  (The second,
two-word location pattern of the source is subsumed by the first: any narrative
it matches also ends in whitespace plus a country code.) -/
def westpacParseNarrative (narrative : Str) : Option Str × Option Str :=
  if narrative = [] then (none, none)
  else
    let n := narrative.length
    let code := narrative.drop (n - 3)
    if 4 ≤ n && westpacLocCodes.any (fun k => decide (k = code)) &&
        isPySpace (narrative.getD (n - 4) 'x') then
      let merchant := pyStrip (narrative.take (n - 3))
      ((if merchant = [] then none else some merchant), some code)
    else (some narrative, none)

/-- Index of the first occurrence of `needle` in `hay`. -/
def findSubIdx : Str → Str → Option Nat
  | [], needle => if needle = [] then some 0 else none
  | c :: rest, needle =>
    if needle.isPrefixOf (c :: rest) then some 0
    else (findSubIdx rest needle).map (· + 1)

/-- A character of the foreign-amount group `[\d.]`. -/
def isAmtChar (c : Char) : Bool := c.isDigit || c = '.'

/-- A character of the currency-text group `[A-Z.\s]` under `IGNORECASE`. -/
def isCurChar (c : Char) : Bool :=
  ('A' ≤ c && c ≤ 'Z') || ('a' ≤ c && c ≤ 'z') || c = '.' || isPySpace c

/-- The currency map of `_parse_foreign_currency` (keyed by the uppercased
currency text). -/
def currencyCode (cur : Str) : Str :=
  if pyUpper cur = "U. S. DOLLAR".toList then "USD".toList
  else if pyUpper cur = "U.S. DOLLAR".toList then "USD".toList
  else if pyUpper cur = "POUND".toList then "GBP".toList
  else if pyUpper cur = "EURO".toList then "EUR".toList
  else if pyUpper cur = "YEN".toList then "JPY".toList
  else cur

/-- The last index at which one of the currency suffix words starts in `cs`
(uppercased input), together with the word's length. -/
def lastCurrencyWord (cs : Str) : Option Nat :=
  let u := pyUpper cs
  let ends := ["DOLLAR", "POUND", "EURO", "YEN"].map String.toList
  let hits := (List.range (u.length + 1)).filterMap fun i =>
    if ends.any (fun w => decide ((u.drop i).take w.length = w)) then
      some (i + (((ends.find? (fun w => decide ((u.drop i).take w.length = w))).map
        List.length).getD 0))
    else none
  match hits with
  | [] => none
  | _ => some (hits.foldl max 0)

/-- `WestpacParser._parse_foreign_currency`, modelling the regex
`FRGN AMT:\s*([\d.]+)\s+([A-Z.\s]+(?:DOLLAR|POUND|EURO|YEN))` (IGNORECASE):
after the literal marker, optional whitespace, a digits-and-dots run, at least
one whitespace, then currency text ending in one of the suffix words.  The
greedy class run is modelled by taking the `[A-Z.\s]` run and cutting it at the
last suffix-word occurrence.  A `Decimal` failure on the amount degrades to
`(none, none)` as in the source. -/
def westpacForeign (narrative : Str) : Option Dec × Option Str :=
  match findSubIdx (pyUpper narrative) ("FRGN AMT:".toList) with
  | none => (none, none)
  | some i =>
    let after := (narrative.drop (i + 9)).dropWhile isPySpace
    let amtStr := after.takeWhile isAmtChar
    let rest := after.dropWhile isAmtChar
    if amtStr = [] || (rest.takeWhile isPySpace) = [] then (none, none)
    else
      let curRun := (rest.dropWhile isPySpace).takeWhile isCurChar
      match lastCurrencyWord curRun with
      | none => (none, none)
      | some stop =>
        let curText := pyStrip (curRun.take stop)
        match Dec.ofChars amtStr with
        | none => (none, none)
        | some amt => (some amt, some (currencyCode curText))

/-- The debit/credit sign convention shared verbatim by the Westpac, Bankwest
and Macquarie row parsers: a positive credit-column value wins (amount
positive, type credit), else a positive debit-column value is negated (type
debit), else the amount is zero with type debit. -/
def signSplitAmount (debitAmount creditAmount : Dec) : Dec × TransactionType :=
  if creditAmount.gtZero then (creditAmount, .credit)
  else if debitAmount.gtZero then (debitAmount.negate, .debit)
  else (Dec.zero, .debit)

/-- `WestpacParser._parse_row`. -/
def westpacParseRow (header row : List Str) (rowNum : Nat) (path : Str)
    (now : PyDateTime) : RowResult :=
  match getStripped header row ("Bank Account".toList),
        getStripped header row ("Date".toList),
        getStripped header row ("Narrative".toList),
        getStripped header row ("Debit Amount".toList),
        getStripped header row ("Credit Amount".toList),
        getStripped header row ("Balance".toList),
        getStripped header row ("Categories".toList) with
  | some accountId, some dateStr, some narrative, some debitStr, some creditStr,
      some balanceStr, some category =>
    if dateStr = [] || narrative = [] then .skip
    else
      match strptimeDMY dateStr with
      | none => .err
      | some transDate =>
        match (if debitStr ≠ [] then parseAmount debitStr else some Dec.zero),
              (if creditStr ≠ [] then parseAmount creditStr else some Dec.zero) with
        | some debitAmount, some creditAmount =>
          let amtType := signSplitAmount debitAmount creditAmount
          let transType :=
            if westpacIsTransfer narrative category then TransactionType.transfer
            else amtType.2
          match (if balanceStr ≠ [] then (parseAmount balanceStr).map some
                 else some none) with
          | none => .err
          | some balance =>
            let ml := westpacParseNarrative narrative
            let ff := westpacForeign narrative
            .ok { id := genTransactionId ("westpac".toList) transDate accountId
                    amtType.1 narrative rowNum,
                  date := transDate, amount := amtType.1, description := narrative,
                  accountId := accountId,
                  accountType := westpacAccountType accountId,
                  bankSource := "westpac".toList, sourceFile := path,
                  balance := balance,
                  originalCategory := (if category = [] then none else some category),
                  category := none, transactionType := transType,
                  merchantName := ml.1, location := ml.2,
                  foreignAmount := ff.1, foreignCurrency := ff.2,
                  rawTransaction := some ⟨path, "westpac".toList, rowNum,
                    dictPairs header row, now, []⟩,
                  createdAt := now }
        | _, _ => .err
  | _, _, _, _, _, _, _ => .err

/-- The try/except row loop of `WestpacParser.parse` (also shared, with other
row functions, by the Bankwest, CBA and Macquarie parsers): failed or skipped
rows are dropped, the row number keeps counting. -/
def rowLoop (parseRow : List Str → Nat → RowResult) :
    List (List Str) → Nat → List Transaction
  | [], _ => []
  | row :: rest, n =>
    match parseRow row n with
    | .ok t => t :: rowLoop parseRow rest (n + 1)
    | _ => rowLoop parseRow rest (n + 1)

/-- `WestpacParser.parse`: read the CSV with a header, convert each data row
(row numbers starting at 2), skipping failed rows.  `Except.error` models a
file-level I/O failure escaping `parse`. -/
def westpacParse (f : CsvFile) (now : PyDateTime) : Except Unit (List Transaction) :=
  if f.readable then
    .ok (rowLoop (fun row n => westpacParseRow f.headerRow row n f.pathStr now)
      f.dataRows 2)
  else .error ()

/-- `WestpacParser.can_parse`: a `.csv` extension and a readable first line
containing the four Westpac columns. -/
def westpacCanParse (f : CsvFile) : Bool :=
  pyLower f.ext = ".csv".toList &&
    (f.readable &&
      (["Bank Account", "Narrative", "Debit Amount", "Credit Amount"].map
        String.toList).all (fun col => containsSub (pyStrip f.firstLine) col))

/-! ## ANZ parser (`src/parsers/anz.py`) -/

/-- `ANZParser._is_transfer`. -/
def anzIsTransfer (description : Str) : Bool :=
  ((["TRANSFER FROM", "TRANSFER TO", "ANZ INTERNET BANKING PAYMENT",
    "ANZ INTERNET BANKING TRANSFER", "INTERNAL TRANSFER"]).map String.toList).any
    (fun kw => containsSub (pyUpper description) kw)

/-- `ANZParser._derive_account_id`: parent directory name, else file stem. -/
def anzDeriveAccountId (f : CsvFile) : Str :=
  if f.dirName ≠ [] && f.dirName ≠ ".".toList then f.dirName else f.stem

/-- One attempt of the `(?:TO|FROM)\s+(.+)$` search at the current position:
keyword (case-insensitive), at least one whitespace, then the stripped
remainder (backtracking one whitespace into the capture when nothing else
follows, as the regex engine does). -/
def tryToFromKw (kw cs : Str) : Option Str :=
  if kw.isPrefixOf (pyUpper cs) then
    let after := cs.drop kw.length
    let ws := after.takeWhile isPySpace
    let rem := after.dropWhile isPySpace
    if ws = [] then none
    else if rem ≠ [] then some (pyStrip rem)
    else if 2 ≤ ws.length then some []
    else none
  else none

/-- Leftmost match of `(?:TO|FROM)\s+(.+)$` (IGNORECASE), stripped capture. -/
def anzToFrom : Str → Option Str
  | [] => none
  | c :: rest =>
    match tryToFromKw ("TO".toList) (c :: rest) with
    | some cap => some cap
    | none =>
      match tryToFromKw ("FROM".toList) (c :: rest) with
      | some cap => some cap
      | none => anzToFrom rest

/-- `ANZParser._parse_description`. -/
def anzParseDescription (description payee : Str) : Option Str × Option Str :=
  if description = [] then (none, none)
  else if payee ≠ [] then (some payee, none)
  else
    match anzToFrom description with
    | some m => (some m, none)
    | none => (some description, none)

/-- `ANZParser._parse_row_data`: first-pass conversion of one row into the
intermediate record (`error` models a caught per-row exception, `ok none` a
skipped structurally empty row). -/
def anzParseRowData (row : List Str) (rowNum : Nat) (path accountId : Str)
    (now : PyDateTime) : Except Unit (Option RowData) :=
  let dateStr := pyStrip (row.getD 0 [])
  let amountStr := pyStrip (row.getD 1 [])
  let description := pyStrip (row.getD 2 [])
  let payee := pyStrip (row.getD 4 [])
  if dateStr = [] || description = [] then .ok none
  else
    match strptimeDMY dateStr with
    | none => .error ()
    | some transDate =>
      match parseAmount amountStr with
      | none => .error ()
      | some amount =>
        let transType :=
          if amount.gtZero then TransactionType.credit
          else if amount.ltZero then TransactionType.debit
          else TransactionType.debit
        let transType2 :=
          if anzIsTransfer description then TransactionType.transfer else transType
        let fullDescription :=
          if payee ≠ [] then description ++ ' ' :: '-' :: ' ' :: payee
          else description
        let ml := anzParseDescription description payee
        .ok (some
          { date := transDate, amount := amount,
            description := fullDescription, accountId := accountId,
            accountType := AccountType.transaction, balance := none,
            originalCategory := none, transactionType := transType2,
            merchantName := ml.1, location := ml.2,
            rawTransaction := ⟨path, "anz".toList, rowNum, idxPairs row, now, []⟩ })

/-- First pass of `ANZParser.parse`: collect intermediate records, dropping
failed and skipped rows (row numbers starting at 1). -/
def anzDataLoop (path accountId : Str) (now : PyDateTime) :
    List (List Str) → Nat → List RowData
  | [], _ => []
  | row :: rest, n =>
    match anzParseRowData row n path accountId now with
    | .ok (some d) => d :: anzDataLoop path accountId now rest (n + 1)
    | _ => anzDataLoop path accountId now rest (n + 1)

/-- Third pass of `ANZParser.parse`: build a `Transaction` from an
intermediate record and its assigned occurrence number. -/
def anzMkTransaction (path : Str) (now : PyDateTime) (d : RowData) (occ : Nat) :
    Transaction :=
  { id := genTransactionId ("anz".toList) d.date d.accountId d.amount
      d.description occ,
    date := d.date, amount := d.amount, description := d.description,
    accountId := d.accountId, accountType := d.accountType,
    bankSource := "anz".toList, sourceFile := path, balance := d.balance,
    originalCategory := d.originalCategory, category := none,
    transactionType := d.transactionType, merchantName := d.merchantName,
    location := d.location, foreignAmount := none, foreignCurrency := none,
    rawTransaction := some d.rawTransaction, createdAt := now }

/-- `ANZParser.parse` (default construction: no explicit account id): parse all
rows, assign occurrence numbers by signature, then generate ids. -/
def anzParse (f : CsvFile) (now : PyDateTime) : Except Unit (List Transaction) :=
  if f.readable then
    .ok ((assignOccurrenceNumbers
        (anzDataLoop f.pathStr (anzDeriveAccountId f) now f.rawRows 1)).map
      fun p => anzMkTransaction f.pathStr now p.1 p.2)
  else .error ()

/-- `ANZParser.can_parse`: `.csv` extension and `anz` in the directory name or
file stem. -/
def anzCanParse (f : CsvFile) : Bool :=
  pyLower f.ext = ".csv".toList &&
    (containsSub (pyLower f.dirName) ("anz".toList) ||
      containsSub (pyLower f.stem) ("anz".toList))

/-! ## CBA parser (`src/parsers/cba.py`) -/

/-- `CBAParser._is_transfer`. -/
def cbaIsTransfer (description : Str) : Bool :=
  ((["Transfer To", "Transfer From", "Fast Transfer", "Direct Credit", "NetBank",
    "CommBank App"]).map String.toList).any
    (fun kw => containsSub (pyUpper description) (pyUpper kw))

/-- Lazy capture `(.+?)` followed by `\s+` and a stop pattern: the shortest
nonempty prefix after which a whitespace run leads into the stop pattern. -/
def capLoop (pre : Str) (rest : Str) (stopMatch : Str → Bool) : Option Str :=
  match rest with
  | [] => none
  | c :: r =>
    if pre ≠ [] && isPySpace c && stopMatch ((c :: r).dropWhile isPySpace) then some pre
    else capLoop (pre ++ [c]) r stopMatch

/-- `CBAParser._parse_description`, modelling its three lazy-capture search
patterns (`Transfer To/From … NetBank|CommBank`, `Fast Transfer From … CT.`,
`Direct Credit <digits> … RENT`, all IGNORECASE) by scanning for the keyword
and taking the shortest capture before the stop word. -/
def cbaParseDescription (description : Str) : Option Str × Option Str :=
  if description = [] then (none, none)
  else
    let u := pyUpper description
    let p1 :=
      (matchAfterKw u description ("TRANSFER TO ".toList)).orElse fun _ =>
        matchAfterKw u description ("TRANSFER FROM ".toList)
    let stop1 := fun (s : Str) =>
      (("NETBANK".toList).isPrefixOf (pyUpper s)) ||
        (("COMMBANK".toList).isPrefixOf (pyUpper s))
    match p1 with
    | some rest1 =>
      match capLoop [] rest1 stop1 with
      | some cap => (some (pyStrip cap), none)
      | none => cbaFallback description
    | none => cbaFallback description
where
  /-- The remainder of `orig` after the first occurrence of `kw` in `u`
  (both uppercased views aligned by index). -/
  matchAfterKw (u orig kw : Str) : Option Str :=
    (findSubIdx u kw).map fun i => orig.drop (i + kw.length)
  /-- The second and third patterns, then the whole description. -/
  cbaFallback (description : Str) : Option Str × Option Str :=
    let u := pyUpper description
    match (findSubIdx u ("FAST TRANSFER FROM ".toList)).map
        (fun i => description.drop (i + 19)) with
    | some rest2 =>
      match capLoop [] rest2
          (fun s => ("CT.".toList).isPrefixOf (pyUpper s)) with
      | some cap => (some (pyStrip cap), none)
      | none => (some description, none)
    | none => (some description, none)

/-- `CBAParser._derive_account_id` (same rule as ANZ). -/
def cbaDeriveAccountId (f : CsvFile) : Str :=
  if f.dirName ≠ [] && f.dirName ≠ ".".toList then f.dirName else f.stem

/-- `CBAParser._parse_row`. -/
def cbaParseRow (row : List Str) (rowNum : Nat) (path accountId : Str)
    (now : PyDateTime) : RowResult :=
  let dateStr := pyStrip (row.getD 0 [])
  let amountStr := pyStrip (row.getD 1 [])
  let description := pyStrip (row.getD 2 [])
  let balanceStr := pyStrip (row.getD 3 [])
  if dateStr = [] || description = [] then .skip
  else
    match strptimeDMY dateStr with
    | none => .err
    | some transDate =>
      match parseCbaAmount amountStr with
      | none => .err
      | some amount =>
        let transType :=
          if amount.gtZero then TransactionType.credit
          else if amount.ltZero then TransactionType.debit
          else TransactionType.debit
        let transType2 :=
          if cbaIsTransfer description then TransactionType.transfer else transType
        match (if balanceStr ≠ [] then (parseCbaAmount balanceStr).map some
               else some none) with
        | none => .err
        | some balance =>
          let ml := cbaParseDescription description
          .ok { id := genTransactionId ("cba".toList) transDate accountId amount
                  description rowNum,
                date := transDate, amount := amount, description := description,
                accountId := accountId, accountType := AccountType.transaction,
                bankSource := "cba".toList, sourceFile := path, balance := balance,
                originalCategory := none, category := none,
                transactionType := transType2, merchantName := ml.1,
                location := ml.2, foreignAmount := none, foreignCurrency := none,
                rawTransaction := some ⟨path, "cba".toList, rowNum, idxPairs row,
                  now, []⟩,
                createdAt := now }

/-- `CBAParser.parse` (default construction): headerless rows, numbering from 1. -/
def cbaParse (f : CsvFile) (now : PyDateTime) : Except Unit (List Transaction) :=
  if f.readable then
    .ok (rowLoop (fun row n => cbaParseRow row n f.pathStr (cbaDeriveAccountId f) now)
      f.rawRows 1)
  else .error ()

/-- `CBAParser.can_parse`: `.csv` extension and a CBA-ish directory name. -/
def cbaCanParse (f : CsvFile) : Bool :=
  pyLower f.ext = ".csv".toList &&
    (containsSub (pyLower f.dirName) ("cba".toList) ||
      containsSub (pyLower f.dirName) ("commbank".toList) ||
      containsSub (pyLower f.dirName) ("commonwealth".toList))

/-! ## Bankwest parser (`src/parsers/bankwest.py`) -/

/-- `BankwestParser._map_transaction_type`. -/
def bankwestMapType (code : Str) (dflt : TransactionType) : TransactionType :=
  if pyUpper code = "WDL".toList then TransactionType.debit
  else if pyUpper code = "DEP".toList then TransactionType.credit
  else if pyUpper code = "TFR".toList then TransactionType.transfer
  else if pyUpper code = "INT".toList then TransactionType.credit
  else if pyUpper code = "FEE".toList then TransactionType.debit
  else dflt

/-- A `\d{2}:\d{2}[AP]M` time pattern starts here (IGNORECASE). -/
def bwTimeStart (cs : Str) : Bool :=
  match cs with
  | a :: b :: c :: d :: e :: f :: g :: _ =>
    a.isDigit && b.isDigit && c = ':' && d.isDigit && e.isDigit &&
      (f.toUpper = 'A' || f.toUpper = 'P') && g.toUpper = 'M'
  | _ => false

/-- `BankwestParser._parse_narration`: `To/From NAME hh:mmPM` or
`NAME hh:mmPM` (anchored lazy captures), else the whole narration. -/
def bankwestParseNarration (narration : Str) : Option Str × Option Str :=
  if narration = [] then (none, none)
  else
    let afterToFrom :=
      if ("TO ".toList).isPrefixOf (pyUpper narration) then some (narration.drop 3)
      else if ("FROM ".toList).isPrefixOf (pyUpper narration) then
        some (narration.drop 5)
      else none
    match afterToFrom with
    | some rest =>
      match capLoop [] (rest.dropWhile isPySpace) bwTimeStart with
      | some cap => (some (pyStrip cap), none)
      | none => bwSecond narration
    | none => bwSecond narration
where
  /-- The anchored `^(.+?)\s+\d{2}:\d{2}[AP]M` pattern, then the fallback. -/
  bwSecond (narration : Str) : Option Str × Option Str :=
    match capLoop [] narration bwTimeStart with
    | some cap => (some (pyStrip cap), none)
    | none => (some narration, none)

/-- `BankwestParser._parse_row`. -/
def bankwestParseRow (header row : List Str) (rowNum : Nat) (path : Str)
    (now : PyDateTime) : RowResult :=
  match getStripped header row ("BSB Number".toList),
        getStripped header row ("Account Number".toList),
        getStripped header row ("Transaction Date".toList),
        getStripped header row ("Narration".toList),
        getStripped header row ("Debit".toList),
        getStripped header row ("Credit".toList),
        getStripped header row ("Balance".toList),
        getStripped header row ("Transaction Type".toList) with
  | some bsb, some accountNum, some dateStr, some narration, some debitStr,
      some creditStr, some balanceStr, some typeCode =>
    if dateStr = [] || narration = [] then .skip
    else
      let accountId :=
        if bsb ≠ [] && accountNum ≠ [] then bsb ++ '-' :: accountNum
        else if accountNum ≠ [] then accountNum else bsb
      match strptimeDMY dateStr with
      | none => .err
      | some transDate =>
        match (if debitStr ≠ [] then parseAmount debitStr else some Dec.zero),
              (if creditStr ≠ [] then parseAmount creditStr else some Dec.zero) with
        | some debitAmount, some creditAmount =>
          let amtType := signSplitAmount debitAmount creditAmount
          let transType := bankwestMapType typeCode amtType.2
          match (if balanceStr ≠ [] then (parseAmount balanceStr).map some
                 else some none) with
          | none => .err
          | some balance =>
            let ml := bankwestParseNarration narration
            .ok { id := genTransactionId ("bankwest".toList) transDate accountId
                    amtType.1 narration rowNum,
                  date := transDate, amount := amtType.1, description := narration,
                  accountId := accountId, accountType := AccountType.transaction,
                  bankSource := "bankwest".toList, sourceFile := path,
                  balance := balance,
                  originalCategory := (if typeCode = [] then none else some typeCode),
                  category := none, transactionType := transType,
                  merchantName := ml.1, location := ml.2, foreignAmount := none,
                  foreignCurrency := none,
                  rawTransaction := some ⟨path, "bankwest".toList, rowNum,
                    dictPairs header row, now, []⟩,
                  createdAt := now }
        | _, _ => .err
  | _, _, _, _, _, _, _, _ => .err

/-- `BankwestParser.parse`: header-based rows, numbering from 2. -/
def bankwestParse (f : CsvFile) (now : PyDateTime) : Except Unit (List Transaction) :=
  if f.readable then
    .ok (rowLoop (fun row n => bankwestParseRow f.headerRow row n f.pathStr now)
      f.dataRows 2)
  else .error ()

/-- `BankwestParser.can_parse`. -/
def bankwestCanParse (f : CsvFile) : Bool :=
  pyLower f.ext = ".csv".toList &&
    (f.readable &&
      ((["BSB Number", "Narration", "Transaction Type"]).map String.toList).all
        (fun col => containsSub (pyStrip f.firstLine) col))

/-! ## Macquarie parser (`src/parsers/macquarie.py`) -/

/-- Python `str.strip('"')`. -/
def stripQuotes (cs : Str) : Str :=
  ((cs.dropWhile (fun c => c = '"')).reverse.dropWhile (fun c => c = '"')).reverse

/-- `MacquarieParser._parse_macquarie_date`. -/
def macquarieParseDate (cs : Str) : Option PyDate :=
  strptimeDbY (pyStrip (stripQuotes cs))

/-- `MacquarieParser._is_transfer`. -/
def macquarieIsTransfer (category subcategory details : Str) : Bool :=
  (pyLower category = "financial".toList && pyLower subcategory = "transfers".toList) ||
    ((["Transfer", "From ", "To "]).map String.toList).any
      (fun kw => containsSub (pyLower details) (pyLower kw))

/-- `MacquarieParser._build_category_string`. -/
def macquarieCategoryStr (category subcategory tags : Str) : Option Str :=
  let parts :=
    (if category ≠ [] then [category] else []) ++
    (if subcategory ≠ [] then [subcategory] else []) ++
    (if tags ≠ [] then ['[' :: (tags ++ [']'])] else [])
  if parts = [] then none else some (List.intercalate (" > ".toList) parts)

/-- `re.sub(r'[^a-z0-9]+', '-', name)`: collapse every run of characters
outside `[a-z0-9]` into one dash (fuel-driven; `fuel ≥ length` suffices). -/
def dashCollapse : Nat → Str → Str
  | 0, _ => []
  | _, [] => []
  | f + 1, c :: rest =>
    if c.isLower || c.isDigit then c :: dashCollapse f rest
    else '-' :: dashCollapse f (rest.dropWhile (fun d => !(d.isLower || d.isDigit)))

/-- `MacquarieParser._derive_account_id`. -/
def macquarieAccountId (accountName : Str) : Str :=
  if accountName = [] then "macquarie-unknown".toList
  else
    let lower := pyLower accountName
    if containsSub lower ("platinum".toList) && containsSub lower ("transaction".toList)
    then "macquarie-platinum".toList
    else if containsSub lower ("savings".toList) then "macquarie-savings".toList
    else if containsSub lower ("transaction".toList) then "macquarie-transaction".toList
    else
      let dashed := dashCollapse lower.length lower
      "macquarie-".toList ++
        ((dashed.dropWhile (fun c => c = '-')).reverse.dropWhile
          (fun c => c = '-')).reverse

/-- `MacquarieParser._detect_account_type`. -/
def macquarieAccountType (accountName : Str) : AccountType :=
  let lower := pyLower accountName
  if containsSub lower ("savings".toList) then AccountType.savings
  else if containsSub lower ("transaction".toList) then AccountType.transaction
  else if containsSub lower ("credit".toList) then AccountType.creditCard
  else if containsSub lower ("loan".toList) then AccountType.loan
  else AccountType.transaction

/-- The `\s+-\s+` stop of the Macquarie `From/To NAME - …` patterns. -/
def macDashStop (cs : Str) : Bool :=
  match cs with
  | '-' :: t => !(t.takeWhile isPySpace).isEmpty
  | _ => false

/-- `MacquarieParser._parse_details` (anchored IGNORECASE patterns
`^From … - `, `^To … - `, `^Salary from …`), else the details themselves. -/
def macquarieParseDetails (details : Str) : Option Str × Option Str :=
  if details = [] then (none, none)
  else
    let u := pyUpper details
    let fromRest :=
      if ("FROM ".toList).isPrefixOf u then some (details.drop 5)
      else none
    match fromRest with
    | some rest =>
      match capLoop [] (rest.dropWhile isPySpace) macDashStop with
      | some cap => (some (pyStrip cap), none)
      | none => macSecond details
    | none => macSecond details
where
  /-- The `^To`, `^Salary from` patterns, then the fallback. -/
  macSecond (details : Str) : Option Str × Option Str :=
    let u := pyUpper details
    let toRest :=
      if ("TO ".toList).isPrefixOf u then some (details.drop 3) else none
    match toRest with
    | some rest =>
      match capLoop [] (rest.dropWhile isPySpace) macDashStop with
      | some cap => (some (pyStrip cap), none)
      | none => macThird details
    | none => macThird details
  macThird (details : Str) : Option Str × Option Str :=
    if ("SALARY FROM ".toList).isPrefixOf (pyUpper details) then
      (some (pyStrip (details.drop 12)), none)
    else (some details, none)

/-- `MacquarieParser._parse_row`. -/
def macquarieParseRow (header row : List Str) (rowNum : Nat) (path : Str)
    (now : PyDateTime) : RowResult :=
  match getStripped header row ("Transaction Date".toList),
        getStripped header row ("Details".toList),
        getStripped header row ("Account".toList),
        getStripped header row ("Category".toList),
        getStripped header row ("Subcategory".toList),
        getStripped header row ("Tags".toList),
        getStripped header row ("Debit".toList),
        getStripped header row ("Credit".toList),
        getStripped header row ("Balance".toList) with
  | some dateStr, some details, some accountName, some category, some subcategory,
      some tags, some debitStr, some creditStr, some balanceStr =>
    if dateStr = [] || details = [] then .skip
    else
      match macquarieParseDate dateStr with
      | none => .err
      | some transDate =>
        match (if debitStr ≠ [] then parseAmount debitStr else some Dec.zero),
              (if creditStr ≠ [] then parseAmount creditStr else some Dec.zero) with
        | some debitAmount, some creditAmount =>
          let amtType := signSplitAmount debitAmount creditAmount
          let transType :=
            if macquarieIsTransfer category subcategory details then
              TransactionType.transfer
            else amtType.2
          match (if balanceStr ≠ [] then (parseAmount balanceStr).map some
                 else some none) with
          | none => .err
          | some balance =>
            let accountId := macquarieAccountId accountName
            let ml := macquarieParseDetails details
            .ok { id := genTransactionId ("macquarie".toList) transDate accountId
                    amtType.1 details rowNum,
                  date := transDate, amount := amtType.1, description := details,
                  accountId := accountId,
                  accountType := macquarieAccountType accountName,
                  bankSource := "macquarie".toList, sourceFile := path,
                  balance := balance,
                  originalCategory := macquarieCategoryStr category subcategory tags,
                  category := none, transactionType := transType,
                  merchantName := ml.1, location := ml.2, foreignAmount := none,
                  foreignCurrency := none,
                  rawTransaction := some ⟨path, "macquarie".toList, rowNum,
                    dictPairs header row, now, []⟩,
                  createdAt := now }
        | _, _ => .err
  | _, _, _, _, _, _, _, _, _ => .err

/-- `MacquarieParser.parse`: header-based rows, numbering from 2. -/
def macquarieParse (f : CsvFile) (now : PyDateTime) : Except Unit (List Transaction) :=
  if f.readable then
    .ok (rowLoop (fun row n => macquarieParseRow f.headerRow row n f.pathStr now)
      f.dataRows 2)
  else .error ()

/-- `MacquarieParser.can_parse`. -/
def macquarieCanParse (f : CsvFile) : Bool :=
  pyLower f.ext = ".csv".toList &&
    (f.readable &&
      ((["Subcategory", "Tags", "Original Description"]).map String.toList).all
        (fun col => containsSub (pyStrip f.firstLine) col))

/-! ## Parser registry (`src/parsers/factory.py`) -/

/-- The five built-in bank parsers, in registration order. -/
inductive Bank
  | westpac
  | anz
  | bankwest
  | cba
  | macquarie
deriving DecidableEq, Repr

/-- `bank_name` of each parser. -/
def Bank.name : Bank → Str
  | .westpac => "westpac".toList
  | .anz => "anz".toList
  | .bankwest => "bankwest".toList
  | .cba => "cba".toList
  | .macquarie => "macquarie".toList

/-- `can_parse` of each built-in parser (none of the five raises: the three
header sniffers catch their own I/O errors, the two path sniffers never open
the file). -/
def Bank.canParse : Bank → CsvFile → Bool
  | .westpac => westpacCanParse
  | .anz => anzCanParse
  | .bankwest => bankwestCanParse
  | .cba => cbaCanParse
  | .macquarie => macquarieCanParse

/-- `parse` of each built-in parser. -/
def Bank.parse : Bank → CsvFile → PyDateTime → Except Unit (List Transaction)
  | .westpac => westpacParse
  | .anz => anzParse
  | .bankwest => bankwestParse
  | .cba => cbaParse
  | .macquarie => macquarieParse

/-- A registered parser as the factory sees it: a name, a detection check that
may raise, and a parse function that may raise a file-level error. -/
structure PParser where
  name : Str
  canParse : CsvFile → Except Unit Bool
  parse : CsvFile → PyDateTime → Except Unit (List Transaction)

/-- A built-in parser as a registry entry. -/
def Bank.entry (b : Bank) : PParser :=
  ⟨b.name, fun f => .ok (b.canParse f), b.parse⟩

/-- `register_default_parsers()`: the registry after startup, in registration
order (insertion order of the registry dict). -/
def defaultRegistry : List PParser :=
  ([Bank.westpac, Bank.anz, Bank.bankwest, Bank.cba, Bank.macquarie]).map Bank.entry

/-- `ParserFactory.detect_parser`: first registered parser whose `can_parse`
returns true; a parser whose check raises is skipped. -/
def detectParser : List PParser → CsvFile → Option PParser
  | [], _ => none
  | p :: rest, f =>
    match p.canParse f with
    | .ok true => some p
    | _ => detectParser rest f

/-- `ParserFactory.get_parser`: registry lookup by name. -/
def getParser (ps : List PParser) (name : Str) : Option PParser :=
  ps.find? (fun p => decide (p.name = name))

/-- The `ValueError`s of `ParserFactory.parse_file`, and a propagated
file-level parser failure. -/
inductive ParseFileError
  | unknownParser (name : Str)
  | noParserMatched (path : Str) (registered : List Str)
  | ioError

/-- `ParserFactory.parse_file`: a (truthy) forced parser name is looked up
directly — unknown names raise without any detection attempt — otherwise the
format is auto-detected, raising an error naming every registered parser when
no parser matches. -/
def parseFile (ps : List PParser) (f : CsvFile) (forced : Option Str)
    (now : PyDateTime) : Except ParseFileError (List Transaction) :=
  let forcedName := match forced with
    | some n => if n = [] then none else some n
    | none => none
  match forcedName with
  | some name =>
    match getParser ps name with
    | none => .error (.unknownParser name)
    | some p => (p.parse f now).mapError (fun _ => .ioError)
  | none =>
    match detectParser ps f with
    | none => .error (.noParserMatched f.pathStr (ps.map PParser.name))
    | some p => (p.parse f now).mapError (fun _ => .ioError)

/-! ## Store (`src/database/sqlite_repository.py`) -/

/-- One row of the `transactions` table (the 17 inserted columns). -/
structure DbRow where
  id : Str
  date : Str
  amount : Str
  description : Str
  accountId : Str
  accountType : Str
  bankSource : Str
  sourceFile : Str
  balance : Option Str
  originalCategory : Option Str
  category : Option Str
  transactionType : Str
  merchantName : Option Str
  location : Option Str
  foreignAmount : Option Str
  foreignCurrency : Option Str
  createdAt : Str
deriving DecidableEq, Repr

/-- The serialised column values of the `INSERT` in `save_transaction`. -/
def dbRowOf (t : Transaction) : DbRow :=
  { id := t.id, date := t.date.iso, amount := Dec.toChars t.amount,
    description := t.description, accountId := t.accountId,
    accountType := t.accountType.value, bankSource := t.bankSource,
    sourceFile := t.sourceFile, balance := t.balance.map Dec.toChars,
    originalCategory := t.originalCategory, category := t.category,
    transactionType := t.transactionType.value, merchantName := t.merchantName,
    location := t.location, foreignAmount := t.foreignAmount.map Dec.toChars,
    foreignCurrency := t.foreignCurrency, createdAt := t.createdAt.iso }

/-- `SQLiteRepository.save_transaction`: insert unless the primary key `id`
already exists; `false` signals the duplicate (`IntegrityError`) case. -/
def saveTransaction (s : List DbRow) (t : Transaction) : List DbRow × Bool :=
  if s.any (fun r => decide (r.id = t.id)) then (s, false)
  else (s ++ [dbRowOf t], true)

/-- `SQLiteRepository.save_transactions`: apply `save_transaction` per
transaction, returning the new store with `(saved_count, skipped_count)`. -/
def saveTransactions (s : List DbRow) : List Transaction → List DbRow × Nat × Nat
  | [] => (s, 0, 0)
  | t :: rest =>
    let p := saveTransaction s t
    let q := saveTransactions p.1 rest
    (q.1, (if p.2 then 1 else 0) + q.2.1, (if p.2 then 0 else 1) + q.2.2)

/-! ## Directory watcher (`src/watcher.py`) -/

/-- The watcher's visible state: files in the watch directory, names under
`processed/` and `failed/`, `.error` sidecar names, and the store. -/
structure WatcherState where
  watch : List CsvFile
  processed : List Str
  failed : List Str
  sidecars : List Str
  store : List DbRow
deriving DecidableEq, Repr

/-- The timestamp-suffixed destination name `{stem}_{timestamp}{suffix}`. -/
def destName (f : CsvFile) (ts : Str) : Str := f.stem ++ '_' :: (ts ++ f.ext)

/-- The sidecar name `{stem}_{timestamp}.error`. -/
def sidecarName (f : CsvFile) (ts : Str) : Str :=
  f.stem ++ '_' :: (ts ++ ".error".toList)

/-- `FileWatcher.process_file` on one discovered file: parse (auto-detect),
save, and relocate.  A parse failure moves the file to `failed/` with a
sidecar note; a parse yielding no transactions returns without touching the
file; otherwise the batch is saved and the file moves to `processed/`.
(Relocation is modelled name-level; the one-level subdirectory preservation of
`_move_to_processed` is not modelled.) -/
def processFile (reg : List PParser) (ts : Str) (now : PyDateTime)
    (st : WatcherState) (f : CsvFile) : WatcherState × Bool :=
  match parseFile reg f none now with
  | .error _ =>
    ({ st with
        watch := st.watch.filter (fun g => decide (g ≠ f)),
        failed := st.failed ++ [destName f ts],
        sidecars := st.sidecars ++ [sidecarName f ts] }, false)
  | .ok [] => (st, false)
  | .ok (t :: rest) =>
    let sv := saveTransactions st.store (t :: rest)
    ({ st with
        watch := st.watch.filter (fun g => decide (g ≠ f)),
        processed := st.processed ++ [destName f ts],
        store := sv.1 }, true)

/-- A fixed parse time used in concrete evaluations. -/
def now0 : PyDateTime := ⟨2026, 1, 2, 3, 4, 5, 0⟩

/-- The Westpac header row. -/
def wHeader : List Str :=
  (["Bank Account", "Date", "Narrative", "Debit Amount", "Credit Amount",
    "Balance", "Categories", "Serial"]).map String.toList

/-- The produced transaction of a row outcome, if any. -/
def RowResult.toOption : RowResult → Option Transaction
  | .ok t => some t
  | _ => none

/-- A concrete transaction with every optional field populated, used to
witness the serialisation round trip. -/
def sampleTxn : Transaction :=
  { id := "westpac_20251101_7802_-50.00_BUNNINGS-5121_2".toList,
    date := ⟨2025, 11, 1⟩, amount := ⟨true, 5000, -2⟩,
    description := "BUNNINGS".toList, accountId := "7802".toList,
    accountType := AccountType.creditCard, bankSource := "westpac".toList,
    sourceFile := "in/westpac.csv".toList, balance := some ⟨false, 10, -1⟩,
    originalCategory := some ("PAYMENT".toList), category := none,
    transactionType := TransactionType.debit, merchantName := some ("BUNNINGS".toList),
    location := none, foreignAmount := some ⟨false, 1, 0⟩,
    foreignCurrency := some ("USD".toList),
    rawTransaction := some ⟨"in/westpac.csv".toList, "westpac".toList, 2,
      [("Date".toList, "01/11/2025".toList)], ⟨2026, 1, 2, 3, 4, 5, 123456⟩, []⟩,
    createdAt := now0 }

/-- Witness for the C5 round trip at a concrete fully populated transaction. -/
theorem fromDict_toDict_witness :
    Transaction.fromDict (Transaction.toDict sampleTxn) = some sampleTxn :=
  fromDict_toDict sampleTxn (by decide) (by decide) (by decide)

/-- C10: `Transaction.from_dict` mutates its argument: the `raw_transaction`
key is removed from the caller's dict (so the dict is not left unchanged
whenever it held one), and the nested raw dict's `parsed_at` string is
overwritten in place with a `datetime` object. -/
theorem fromDict_mutates_argument (d : TransDict) (r : RawDict) (s : Str)
    (pdt : PyDateTime) (hraw : d.rawTransaction = some r)
    (hs : r.parsedAt = PyVal.str s) (hparse : PyDateTime.fromIso s = some pdt) :
    (Transaction.fromDictFull d).2.1.rawTransaction = none ∧
    (Transaction.fromDictFull d).2.1 ≠ d ∧
    (Transaction.fromDictFull d).2.2 = some { r with parsedAt := PyVal.dt pdt } ∧
    { r with parsedAt := PyVal.dt pdt } ≠ r := by
  unfold Transaction.fromDictFull
  rw [hraw]
  dsimp only
  rw [hs]
  dsimp only
  rw [hparse]
  dsimp only
  refine ⟨rfl, ?_, rfl, ?_⟩
  · intro h
    have h2 := congrArg TransDict.rawTransaction h
    dsimp only at h2
    rw [hraw] at h2
    exact Option.noConfusion h2
  · intro h
    have h2 := congrArg RawDict.parsedAt h
    dsimp only at h2
    rw [hs] at h2
    exact PyVal.noConfusion h2

/-- A concrete dict holding a raw transaction, for the C10 witness. -/
def sampleDict : TransDict := Transaction.toDict sampleTxn

/-- Witness for C10 at a concrete dict with a raw transaction present. -/
theorem fromDict_mutates_argument_witness :
    (Transaction.fromDictFull sampleDict).2.1.rawTransaction = none ∧
    (Transaction.fromDictFull sampleDict).2.1 ≠ sampleDict := by
  have h := fromDict_mutates_argument sampleDict
    (RawTransaction.toDict ⟨"in/westpac.csv".toList, "westpac".toList, 2,
      [("Date".toList, "01/11/2025".toList)], ⟨2026, 1, 2, 3, 4, 5, 123456⟩, []⟩)
    (PyDateTime.iso ⟨2026, 1, 2, 3, 4, 5, 123456⟩) ⟨2026, 1, 2, 3, 4, 5, 123456⟩
    (by decide) (by decide) (by decide)
  exact ⟨h.1, h.2.1⟩

/-- `detect_parser`'s acceptance test: `can_parse` returned `true` (a raised
detection check counts as a non-match). -/
def canParseOk (p : PParser) (f : CsvFile) : Bool :=
  match p.canParse f with
  | .ok true => true
  | _ => false

/-- C7: the factory contract.  Detection returns the first registered parser
whose `can_parse` is true, in registration order (`find?`); a parser whose
check raises is skipped without aborting detection; a forced unknown name
raises `unknownParser` for every file and registry (so no detection is
attempted); and a detection miss raises an error carrying every registered
parser name. -/
theorem factory_contract :
    (∀ ps f, detectParser ps f = ps.find? (fun p => canParseOk p f)) ∧
    (∀ p ps f e, p.canParse f = .error e →
      detectParser (p :: ps) f = detectParser ps f) ∧
    (∀ ps f now name, name ≠ [] → getParser ps name = none →
      parseFile ps f (some name) now = .error (.unknownParser name)) ∧
    (∀ ps f now, detectParser ps f = none →
      parseFile ps f none now = .error (.noParserMatched f.pathStr
        (ps.map PParser.name))) := by
  refine ⟨?_, ?_, ?_, ?_⟩
  · intro ps
    induction ps with
    | nil => intro f; rfl
    | cons p ps ih =>
      intro f
      show (match p.canParse f with
            | .ok true => some p
            | _ => detectParser ps f) = _
      rw [List.find?]
      cases hc : p.canParse f with
      | ok b =>
        cases b with
        | true => simp [canParseOk, hc]
        | false => simp [canParseOk, hc, ih f]
      | error e => simp [canParseOk, hc, ih f]
  · intro p ps f e h
    show (match p.canParse f with
          | .ok true => some p
          | _ => detectParser ps f) = _
    rw [h]
  · intro ps f now name hne hget
    unfold parseFile
    dsimp only
    rw [if_neg hne]
    dsimp only
    rw [hget]
  · intro ps f now hdet
    unfold parseFile
    dsimp only
    rw [hdet]

theorem dropWhile_all_false {p : Char → Bool} (l : Str) (h : ∀ c ∈ l, p c = false) :
    l.dropWhile p = l := by
  cases l with
  | nil => rfl
  | cons c rest =>
    rw [List.dropWhile_cons, if_neg]
    simp [h c (List.mem_cons_self c rest)]

theorem pyStrip_no_ws (l : Str) (h : ∀ c ∈ l, isPySpace c = false) : pyStrip l = l := by
  unfold pyStrip
  rw [dropWhile_all_false l h,
    dropWhile_all_false _ (fun c hc => h c (by simpa using hc)), List.reverse_reverse]

theorem ofCharsExp_neg (ng : Bool) (ip fp cs : Str) :
    Dec.ofCharsExp ng ip fp cs =
      (Dec.ofCharsExp false ip fp cs).map (fun d => ⟨ng, d.mant, d.exp⟩) := by
  unfold Dec.ofCharsExp
  by_cases h : (ip.isEmpty && fp.isEmpty) = true
  · rw [if_pos h, if_pos h]
    rfl
  · rw [if_neg h, if_neg h]
    cases cs with
    | nil => rfl
    | cons c r =>
      dsimp only
      by_cases hE : (c = 'E' ∨ c = 'e')
      · rw [if_pos hE, if_pos hE]
        by_cases h2 : ((spanDigits (readSign r).2).1.isEmpty ||
            !(spanDigits (readSign r).2).2.isEmpty) = true
        · rw [if_pos h2, if_pos h2]
          rfl
        · rw [if_neg h2, if_neg h2]
          rfl
      · rw [if_neg hE, if_neg hE]
        rfl

theorem ofCharsFrac_neg (ng : Bool) (ip cs : Str) :
    Dec.ofCharsFrac ng ip cs =
      (Dec.ofCharsFrac false ip cs).map (fun d => ⟨ng, d.mant, d.exp⟩) := by
  cases cs with
  | nil => exact ofCharsExp_neg ng ip [] []
  | cons c r =>
    show (if c = '.' then _ else _) = ((if c = '.' then _ else _) : Option Dec).map _
    by_cases hc : c = '.'
    · rw [if_pos hc, if_pos hc]
      exact ofCharsExp_neg ng ip _ _
    · rw [if_neg hc, if_neg hc]
      exact ofCharsExp_neg ng ip [] _

theorem ofCharsBody_neg (ng : Bool) (cs : Str) :
    Dec.ofCharsBody ng cs =
      (Dec.ofCharsBody false cs).map (fun d => ⟨ng, d.mant, d.exp⟩) := by
  unfold Dec.ofCharsBody
  exact ofCharsFrac_neg ng _ _

theorem ne_of_digit {c : Char} (h : c.isDigit = true) (d : Char)
    (hd : d.isDigit = false) : c ≠ d := by
  intro he
  subst he
  rw [h] at hd
  exact Bool.noConfusion hd

theorem digit_not_space {c : Char} (h : c.isDigit = true) : isPySpace c = false := by
  unfold isPySpace
  simp only [Bool.or_eq_false_iff]
  exact ⟨⟨⟨⟨⟨decide_eq_false (ne_of_digit h _ (by decide)),
    decide_eq_false (ne_of_digit h _ (by decide))⟩,
    decide_eq_false (ne_of_digit h _ (by decide))⟩,
    decide_eq_false (ne_of_digit h _ (by decide))⟩,
    decide_eq_false (ne_of_digit h _ (by decide))⟩,
    decide_eq_false (ne_of_digit h _ (by decide))⟩

theorem digit_keeps_amount_chars {c : Char} (h : c.isDigit = true) :
    (!(c = '$' || c = ',' || c = ' ')) = true := by
  have hz : (decide (c = '$') || decide (c = ',') || decide (c = ' ')) = false := by
    simp only [Bool.or_eq_false_iff]
    exact ⟨⟨decide_eq_false (ne_of_digit h _ (by decide)),
      decide_eq_false (ne_of_digit h _ (by decide))⟩,
      decide_eq_false (ne_of_digit h _ (by decide))⟩
  rw [hz]
  rfl

set_option maxRecDepth 400000 in
/-- C6: the sign conventions.  (i) The debit/credit split shared by the
Westpac, Bankwest and Macquarie row parsers: positive credit ⇒ `(+credit,
credit)`, else positive debit ⇒ `(−debit, debit)`, else `(0, debit)`.
(ii) A Westpac row with debit `11.40` and empty credit parses to amount
`-11.40`, type debit.  (iii) `'+250.00'` parses to `250.00`, and an ANZ
(signed-amount) row carrying it yields a credit of `250.00`.  (iv) A
parenthesised numeral `(x)` parses to `-x`. -/
theorem sign_convention_contract :
    (∀ d c : Dec,
      (c.gtZero = true → signSplitAmount d c = (c, TransactionType.credit)) ∧
      (c.gtZero = false → d.gtZero = true →
        signSplitAmount d c = (d.negate, TransactionType.debit)) ∧
      (c.gtZero = false → d.gtZero = false →
        signSplitAmount d c = (Dec.zero, TransactionType.debit))) ∧
    ((westpacParseRow wHeader
        ((["7802", "30/11/2025", "BUNNINGS", "11.40", "", "", "", ""]).map
          String.toList)
        2 ("in/westpac.csv".toList) now0).toOption.map
        (fun t => (t.amount, t.transactionType)) =
      some (Dec.mk true 1140 (-2), TransactionType.debit)) ∧
    (parseAmount ("+250.00".toList) = some (Dec.mk false 25000 (-2)) ∧
      ((anzParseRowData ((["01/11/2025", "+250.00", "SALARY", "", ""]).map
          String.toList) 1 ("anz/a.csv".toList) ("anz-acct".toList) now0).toOption.map
        (Option.map (fun r => (r.amount, r.transactionType))) =
        some (some (Dec.mk false 25000 (-2), TransactionType.credit)))) ∧
    (∀ cs m e, (∀ c ∈ cs, c.isDigit = true ∨ c = '.') → cs ≠ [] →
      Dec.ofChars cs = some (Dec.mk false m e) →
      parseAmount ('(' :: (cs ++ [')'])) = some (Dec.mk true m e)) := by
  refine ⟨?_, by decide, ⟨by decide, by decide⟩, ?_⟩
  · intro d c
    unfold signSplitAmount
    refine ⟨?_, ?_, ?_⟩
    · intro h
      rw [if_pos h]
    · intro hc hd
      rw [if_neg (by simp [hc]), if_pos hd]
    · intro hc hd
      rw [if_neg (by simp [hc]), if_neg (by simp [hd])]
  · intro cs m e hchars hne hparse
    have hmem : ∀ c ∈ '(' :: (cs ++ [')']), isPySpace c = false := by
      intro c hc
      rcases List.mem_cons.mp hc with rfl | hc
      · decide
      · rcases List.mem_append.mp hc with hc | hc
        · rcases hchars c hc with hd | rfl
          · exact digit_not_space hd
          · decide
        · rw [List.mem_singleton.mp hc]
          decide
    have hstrip : pyStrip ('(' :: (cs ++ [')'])) = '(' :: (cs ++ [')']) :=
      pyStrip_no_ws _ hmem
    unfold parseAmount
    rw [hstrip]
    rw [if_neg (by simp)]
    have hfil : ('(' :: (cs ++ [')'])).filter
        (fun c => !(c = '$' || c = ',' || c = ' ')) = '(' :: (cs ++ [')']) := by
      rw [List.filter_eq_self]
      intro a ha
      rcases List.mem_cons.mp ha with rfl | ha
      · decide
      · rcases List.mem_append.mp ha with ha | ha
        · rcases hchars a ha with hd | rfl
          · exact digit_keeps_amount_chars hd
          · decide
        · rw [List.mem_singleton.mp ha]
          decide
    rw [hfil]
    have hlast : ('(' :: (cs ++ [')'])).getLast? = some ')' := by
      rw [show ('(' :: (cs ++ [')'])) = ('(' :: cs) ++ [')'] from rfl]
      exact List.getLast?_concat _
    have hpn : parenNegate ('(' :: (cs ++ [')'])) = '-' :: cs := by
      unfold parenNegate
      rw [if_pos (by rw [hlast]; simp)]
      congr 1
      show (cs ++ [')']).dropLast = cs
      simp
    rw [hpn]
    obtain ⟨c0, cs', rfl⟩ : ∃ c0 cs', cs = c0 :: cs' := by
      cases cs with
      | nil => exact absurd rfl hne
      | cons a b => exact ⟨a, b, rfl⟩
    have hne0 : c0 ≠ '-' ∧ c0 ≠ '+' := by
      rcases hchars c0 (List.mem_cons_self c0 cs') with hd | rfl
      · exact ⟨digit_ne_minus hd, digit_ne_plus hd⟩
      · exact ⟨by decide, by decide⟩
    have hrs : readSign ('-' :: c0 :: cs') = (true, c0 :: cs') := by
      show (if '-' = '-' then (true, c0 :: cs')
            else if '-' = '+' then (false, c0 :: cs')
            else (false, '-' :: c0 :: cs')) = (true, c0 :: cs')
      rw [if_pos rfl]
    have hOF : Dec.ofChars ('-' :: c0 :: cs') = Dec.ofCharsBody true (c0 :: cs') := by
      show Dec.ofCharsBody (readSign ('-' :: c0 :: cs')).1
        (readSign ('-' :: c0 :: cs')).2 = _
      rw [hrs]
    have hcs : Dec.ofChars (c0 :: cs') = Dec.ofCharsBody false (c0 :: cs') := by
      show Dec.ofCharsBody (readSign (c0 :: cs')).1 (readSign (c0 :: cs')).2 = _
      rw [readSign_no_sign c0 cs' hne0.1 hne0.2]
    rw [hOF, ofCharsBody_neg true, ← hcs, hparse]
    rfl

/-- Witness for C6: the debit branch at `11.40`, and `(30.00)` parsed as
`-30.00`. -/
theorem sign_convention_contract_witness :
    signSplitAmount (Dec.mk false 1140 (-2)) Dec.zero =
      (Dec.mk true 1140 (-2), TransactionType.debit) ∧
    parseAmount ("(30.00)".toList) = some (Dec.mk true 3000 (-2)) := by
  constructor
  · exact (sign_convention_contract.1 (Dec.mk false 1140 (-2)) Dec.zero).2.1
      (by decide) (by decide)
  · exact sign_convention_contract.2.2.2 ("30.00".toList) 3000 (-2)
      (by decide) (by decide) (by decide)

/-- C8: row-level fault tolerance.  (i) In the shared row loop a failed or
skipped row contributes nothing and the remaining rows are still parsed (with
their original row numbers); (ii) likewise for the ANZ first-pass loop;
(iii) a Westpac row whose date or narrative cell is empty is skipped, not an
error; (iv) a file-level read failure — and only it — aborts the whole file
for every parser: an unreadable file raises, a readable one always returns a
row list. -/
theorem row_fault_tolerance :
    (∀ pr (row : List Str) rows n, (pr row n = RowResult.err ∨ pr row n = RowResult.skip) →
      rowLoop pr (row :: rows) n = rowLoop pr rows (n + 1)) ∧
    (∀ path acct now (row : List Str) rows n,
      (anzParseRowData row n path acct now = .error () ∨
        anzParseRowData row n path acct now = .ok none) →
      anzDataLoop path acct now (row :: rows) n = anzDataLoop path acct now rows (n + 1)) ∧
    (∀ header row n path now dateStr narrStr,
      getStripped header row ("Bank Account".toList) ≠ none →
      getStripped header row ("Date".toList) = some dateStr →
      getStripped header row ("Narrative".toList) = some narrStr →
      getStripped header row ("Debit Amount".toList) ≠ none →
      getStripped header row ("Credit Amount".toList) ≠ none →
      getStripped header row ("Balance".toList) ≠ none →
      getStripped header row ("Categories".toList) ≠ none →
      (dateStr = [] ∨ narrStr = []) →
      westpacParseRow header row n path now = RowResult.skip) ∧
    (∀ b f now, f.readable = false → Bank.parse b f now = .error ()) ∧
    (∀ b f now, f.readable = true → ∃ l, Bank.parse b f now = .ok l) := by
  refine ⟨?_, ?_, ?_, ?_, ?_⟩
  · intro pr row rows n h
    show (match pr row n with
          | RowResult.ok t => t :: rowLoop pr rows (n + 1)
          | _ => rowLoop pr rows (n + 1)) = rowLoop pr rows (n + 1)
    rcases h with h | h <;> rw [h]
  · intro path acct now row rows n h
    show (match anzParseRowData row n path acct now with
          | .ok (some d) => d :: anzDataLoop path acct now rows (n + 1)
          | _ => anzDataLoop path acct now rows (n + 1)) =
      anzDataLoop path acct now rows (n + 1)
    rcases h with h | h <;> rw [h]
  · intro header row n path now dateStr narrStr hacct hdate hnarr hdeb hcred hbal hcat hemp
    unfold westpacParseRow
    obtain ⟨acct, hacct⟩ := Option.ne_none_iff_exists'.mp hacct
    obtain ⟨deb, hdeb⟩ := Option.ne_none_iff_exists'.mp hdeb
    obtain ⟨cred, hcred⟩ := Option.ne_none_iff_exists'.mp hcred
    obtain ⟨bal, hbal⟩ := Option.ne_none_iff_exists'.mp hbal
    obtain ⟨cat, hcat⟩ := Option.ne_none_iff_exists'.mp hcat
    rw [hacct, hdate, hnarr, hdeb, hcred, hbal, hcat]
    dsimp only
    rw [if_pos]
    rcases hemp with h | h <;> simp [h]
  · intro b f now h
    cases b <;>
      simp [Bank.parse, westpacParse, anzParse, bankwestParse, cbaParse,
        macquarieParse, h]
  · intro b f now h
    cases b <;>
      simp [Bank.parse, westpacParse, anzParse, bankwestParse, cbaParse,
        macquarieParse, h]

/-- Witness for C8: a Westpac row with an empty date is skipped, and dropping
it leaves the remaining rows parsed; an unreadable file errors; a readable
empty file parses to an empty batch. -/
theorem row_fault_tolerance_witness :
    westpacParseRow wHeader ((["7802", "", "X", "1.00", "", "", "", ""]).map
        String.toList) 2 ("p".toList) now0 = RowResult.skip ∧
    rowLoop (fun row n => westpacParseRow wHeader row n ("p".toList) now0)
        (((["7802", "", "X", "1.00", "", "", "", ""]).map String.toList) :: []) 2 =
      rowLoop (fun row n => westpacParseRow wHeader row n ("p".toList) now0) [] 3 ∧
    Bank.parse Bank.westpac ⟨"d".toList, "s".toList, ".csv".toList, false, [], []⟩
        now0 = .error () ∧
    (∃ l, Bank.parse Bank.anz ⟨"anz".toList, "s".toList, ".csv".toList, true, [], []⟩
        now0 = .ok l) := by
  have hskip := row_fault_tolerance.2.2.1 wHeader
    ((["7802", "", "X", "1.00", "", "", "", ""]).map String.toList) 2 ("p".toList)
    now0 [] ("X".toList) (by decide) (by decide) (by decide) (by decide) (by decide)
    (by decide) (by decide) (Or.inl rfl)
  refine ⟨hskip, ?_, ?_, ?_⟩
  · exact row_fault_tolerance.1 _ _ [] 2 (Or.inr hskip)
  · exact row_fault_tolerance.2.2.2.1 Bank.westpac _ now0 rfl
  · exact row_fault_tolerance.2.2.2.2 Bank.anz _ now0 rfl

/-- A Westpac export containing the same transaction twice (rows 2 and 3). -/
def westpacDupFile : CsvFile :=
  ⟨"in".toList, "westpac-export".toList, ".csv".toList, true,
    "Bank Account,Date,Narrative,Debit Amount,Credit Amount,Balance,Categories,Serial".toList,
    [wHeader,
     (["7802", "01/11/2025", "BUNNINGS", "50.00", "", "", "", ""]).map String.toList,
     (["7802", "01/11/2025", "BUNNINGS", "50.00", "", "", "", ""]).map String.toList]⟩

set_option maxRecDepth 1000000 in
/-- C2 evidence: the Westpac parser (like Bankwest, CBA and Macquarie) passes
the CSV row number as the `occurrence` argument of the id generator, so two
identical rows in one file get ids ending `_2` and `_3` — their row numbers —
not the per-signature occurrence numbers `{1, 2}` that
`_generate_transaction_id`'s documentation and `_assign_occurrence_numbers`
prescribe (and that the ANZ parser actually assigns). -/
theorem westpac_occurrence_is_row_number :
    (westpacParse westpacDupFile now0).toOption.map (List.map Transaction.id) =
      some [("westpac_20251101_7802_-50.00_BUNNINGS-5121_2").toList,
            ("westpac_20251101_7802_-50.00_BUNNINGS-5121_3").toList] := by decide

/-- A registered parser whose detection check always raises. -/
def raisingParser : PParser :=
  ⟨"boom".toList, fun _ => .error (), fun _ _ => .ok []⟩

/-- An empty, readable, `.csv`-suffixed file in an `anz` directory. -/
def anzEmptyFile : CsvFile :=
  ⟨"anz-account".toList, "export".toList, ".csv".toList, true, [], []⟩

/-- Witness for C7: a raising parser ahead of the ANZ parser is skipped and
detection still finds ANZ; an unknown forced name and an undetectable file
raise the documented errors. -/
theorem factory_contract_witness :
    detectParser [raisingParser, Bank.anz.entry] anzEmptyFile =
       List.find? (fun p => canParseOk p anzEmptyFile) [raisingParser, Bank.anz.entry] ∧
    detectParser [raisingParser, Bank.anz.entry] anzEmptyFile =
       detectParser [Bank.anz.entry] anzEmptyFile ∧
    parseFile [Bank.anz.entry] anzEmptyFile (some ("nab".toList)) now0 =
      .error (.unknownParser ("nab".toList)) ∧
    parseFile [] anzEmptyFile none now0 =
      .error (.noParserMatched anzEmptyFile.pathStr []) := by
  refine ⟨factory_contract.1 _ _, ?_, ?_, ?_⟩
  · exact factory_contract.2.1 raisingParser [Bank.anz.entry] anzEmptyFile () rfl
  · exact factory_contract.2.2.1 [Bank.anz.entry] anzEmptyFile now0 ("nab".toList)
      (by decide) rfl
  · exact factory_contract.2.2.2 [] anzEmptyFile now0 rfl

set_option maxRecDepth 400000 in
theorem westpac_row_sanity :
    ((westpacParseRow wHeader
      ((["7802", "30/11/2025", "BUNNINGS", "11.40", "", "", "", ""]).map String.toList)
      2 ("in/westpac.csv".toList) now0).toOption.map
        (fun t => (t.id, t.amount, t.transactionType))) =
    some ("westpac_20251130_7802_-11.40_BUNNINGS-5121_2".toList,
      Dec.mk true 1140 (-2), TransactionType.debit) := by decide

theorem dec_sanity_1 : Dec.ofChars "11.40".toList = some ⟨false, 1140, -2⟩ := by decide

theorem dec_sanity_2 : Dec.toChars ⟨true, 1140, -2⟩ = "-11.40".toList := by decide

theorem dec_sanity_3 : Dec.toChars ⟨false, 1, 2⟩ = "1E+2".toList := by decide

theorem dec_sanity_4 : Dec.toChars ⟨false, 0, -5⟩ = "0.00000".toList := by decide

theorem dec_sanity_5 : Dec.ofChars "+250.00".toList = some ⟨false, 25000, -2⟩ := by decide

theorem dec_sanity_6 : Dec.toChars ⟨false, 1, -9⟩ = "1E-9".toList := by decide

theorem dec_sanity_7 : Dec.ofChars "1E-9".toList = some ⟨false, 1, -9⟩ := by decide

theorem dec_sanity_8 : Dec.ofChars "abc".toList = none := by decide


/-! ## Structure of generated transaction ids (claim C4) -/

theorem leBytes_length (k : Nat) : ∀ n, (leBytes k n).length = k := by
  induction k with
  | zero => intro n; rfl
  | succ k ih => intro n; simp [leBytes, ih]

theorem four_leBytes_length (a b c d : Nat) :
    (leBytes 4 a ++ leBytes 4 b ++ leBytes 4 c ++ leBytes 4 d).length = 16 := by
  simp [leBytes_length]

theorem md5digest_length (msg : List Nat) : (md5digest msg).length = 16 :=
  four_leBytes_length _ _ _ _

theorem hexByte_flatten_length : ∀ l : List Nat,
    ((l.map hexByte).flatten).length = 2 * l.length := by
  intro l
  induction l with
  | nil => rfl
  | cons b rest ih =>
    show (hexByte b ++ (rest.map hexByte).flatten).length = 2 * (rest.length + 1)
    rw [List.length_append, ih]
    show 2 + 2 * rest.length = 2 * (rest.length + 1)
    omega

theorem descHash4_length (desc : Str) : (descHash4 desc).length = 4 := by
  unfold descHash4 md5hex
  rw [List.length_take, hexByte_flatten_length, md5digest_length]
  omega

/-- Splitting a separated concatenation at the first separator occurrence:
when neither prefix contains the separator, prefixes and suffixes agree. -/
theorem sepSplit {sep : Char} : ∀ {A B X Y : Str},
    A ++ sep :: X = B ++ sep :: Y →
    A.all (fun c => !(c == sep)) = true → B.all (fun c => !(c == sep)) = true →
    A = B ∧ X = Y := by
  intro A
  induction A with
  | nil =>
    intro B X Y h hA hB
    cases B with
    | nil =>
      refine ⟨rfl, ?_⟩
      simpa using h
    | cons b B2 =>
      simp only [List.nil_append, List.cons_append, List.cons.injEq] at h
      rw [List.all_cons, ← h.1] at hB
      simp at hB
  | cons a A2 ih =>
    intro B X Y h hA hB
    cases B with
    | nil =>
      simp only [List.cons_append, List.nil_append, List.cons.injEq] at h
      rw [List.all_cons, h.1] at hA
      simp at hA
    | cons b B2 =>
      simp only [List.cons_append, List.cons.injEq] at h
      rw [List.all_cons, Bool.and_eq_true] at hA hB
      obtain ⟨h1, h2⟩ := ih h.2 hA.2 hB.2
      exact ⟨by rw [h.1, h1], h2⟩

/-- Splitting a separated concatenation at the last separator occurrence. -/
theorem sepSplitLast {sep : Char} {A B X Y : Str}
    (h : A ++ sep :: X = B ++ sep :: Y)
    (hX : X.all (fun c => !(c == sep)) = true)
    (hY : Y.all (fun c => !(c == sep)) = true) : A = B ∧ X = Y := by
  have h2 : X.reverse ++ sep :: A.reverse = Y.reverse ++ sep :: B.reverse := by
    have h3 := congrArg List.reverse h
    simpa [List.reverse_append, List.append_assoc] using h3
  have hXr : X.reverse.all (fun c => !(c == sep)) = true := by
    rw [List.all_eq_true] at hX ⊢
    intro c hc
    exact hX c (List.mem_reverse.mp hc)
  have hYr : Y.reverse.all (fun c => !(c == sep)) = true := by
    rw [List.all_eq_true] at hY ⊢
    intro c hc
    exact hY c (List.mem_reverse.mp hc)
  obtain ⟨hxy, hab⟩ := sepSplit h2 hXr hYr
  constructor
  · rw [← List.reverse_reverse A, hab, List.reverse_reverse]
  · rw [← List.reverse_reverse X, hxy, List.reverse_reverse]

theorem digit_not_underscore {c : Char} (h : c.isDigit = true) :
    (!(c == '_')) = true := by
  rcases eq_or_ne c '_' with rfl | hne
  · exact absurd h (by decide)
  · simp [hne]

theorem all_ne_underscore_of_digit {cs : Str} (h : ∀ c ∈ cs, c.isDigit = true) :
    cs.all (fun c => !(c == '_')) = true := by
  rw [List.all_eq_true]
  intro c hc
  exact digit_not_underscore (h c hc)

theorem ymd_all_digit (d : PyDate) : ∀ c ∈ d.ymd, c.isDigit = true := by
  intro c hc
  unfold PyDate.ymd at hc
  rcases List.mem_append.mp hc with hc | hc
  · rcases List.mem_append.mp hc with hc | hc
    · exact padChars_all_digit 4 d.year c hc
    · exact padChars_all_digit 2 d.month c hc
  · exact padChars_all_digit 2 d.day c hc

theorem bodyCore_no_underscore (ds : Str) (ld dp : Int)
    (hds : ∀ c ∈ ds, c.isDigit = true) :
    ∀ c ∈ Dec.bodyCore ds ld dp, (!(c == '_')) = true := by
  intro c hc
  unfold Dec.bodyCore at hc
  rcases List.mem_append.mp hc with hc | hc
  · split at hc
    · rcases List.mem_cons.mp hc with rfl | hc
      · decide
      · rcases List.mem_cons.mp hc with rfl | hc
        · decide
        · rcases List.mem_append.mp hc with hc | hc
          · rw [(List.mem_replicate.mp hc).2]
            decide
          · exact digit_not_underscore (hds c hc)
    · split at hc
      · rcases List.mem_append.mp hc with hc | hc
        · exact digit_not_underscore (hds c hc)
        · rw [(List.mem_replicate.mp hc).2]
          decide
      · rcases List.mem_append.mp hc with hc | hc
        · exact digit_not_underscore (hds c (List.mem_of_mem_take hc))
        · rcases List.mem_cons.mp hc with rfl | hc
          · decide
          · exact digit_not_underscore (hds c (List.mem_of_mem_drop hc))
  · split at hc
    · cases hc
    · rcases List.mem_cons.mp hc with rfl | hc
      · decide
      · unfold intCharsSigned at hc
        split at hc <;> rcases List.mem_cons.mp hc with rfl | hc
        · decide
        · exact digit_not_underscore (natChars_all_digit _ c hc)
        · decide
        · exact digit_not_underscore (natChars_all_digit _ c hc)

theorem toChars_no_underscore (d : Dec) :
    (Dec.toChars d).all (fun c => !(c == '_')) = true := by
  rw [List.all_eq_true]
  intro c hc
  unfold Dec.toChars Dec.bodyChars at hc
  rcases List.mem_append.mp hc with hc | hc
  · split at hc
    · rw [List.mem_singleton.mp hc]
      decide
    · cases hc
  · exact bodyCore_no_underscore _ _ _ (natChars_all_digit d.mant) c hc

/-- A valid date is recoverable from its fixed-width `YYYYMMDD` rendering. -/
theorem ymd_inj {d1 d2 : PyDate} (h1 : d1.valid = true) (h2 : d2.valid = true)
    (h : d1.ymd = d2.ymd) : d1 = d2 := by
  obtain ⟨y1, mo1, dy1⟩ := d1
  obtain ⟨y2, mo2, dy2⟩ := d2
  simp only [PyDate.valid, Bool.and_eq_true, decide_eq_true_eq] at h1 h2
  obtain ⟨⟨⟨⟨⟨hy1a, hy1b⟩, hm1a⟩, hm1b⟩, hd1a⟩, hd1b⟩ := h1
  obtain ⟨⟨⟨⟨⟨hy2a, hy2b⟩, hm2a⟩, hm2b⟩, hd2a⟩, hd2b⟩ := h2
  have hD1 := daysInMonth_le y1 mo1
  have hD2 := daysInMonth_le y2 mo2
  have e4 : (10 : Nat) ^ 4 = 10000 := by norm_num
  have e2 : (10 : Nat) ^ 2 = 100 := by norm_num
  unfold PyDate.ymd at h
  dsimp only at h
  have l5 : (padChars 2 dy1).length = 2 :=
    padChars_length (by rw [e2]; omega) (by decide)
  have l6 : (padChars 2 dy2).length = 2 :=
    padChars_length (by rw [e2]; omega) (by decide)
  obtain ⟨h12, hd⟩ := List.append_inj' h (l5.trans l6.symm)
  have l1 : (padChars 4 y1).length = 4 :=
    padChars_length (by rw [e4]; omega) (by decide)
  have l2 : (padChars 4 y2).length = 4 :=
    padChars_length (by rw [e4]; omega) (by decide)
  obtain ⟨hy, hm⟩ := List.append_inj h12 (l1.trans l2.symm)
  have ey := congrArg charsVal hy
  have em := congrArg charsVal hm
  have ed := congrArg charsVal hd
  rw [charsVal_padChars, charsVal_padChars] at ey em ed
  simp only [PyDate.mk.injEq]
  exact ⟨ey, em, ed⟩

/-- `str()` on the modelled `Decimal` values is injective (a consequence of
the parser round trip). -/
theorem toChars_injective {a b : Dec} (h : Dec.toChars a = Dec.toChars b) :
    a = b := by
  have ha := dec_roundtrip a
  rw [h, dec_roundtrip b] at ha
  exact (Option.some_inj.mp ha).symm

theorem natChars_inj {m n : Nat} (h : natChars m = natChars n) : m = n := by
  have h2 := congrArg charsVal h
  rwa [charsVal_natChars, charsVal_natChars] at h2

/-- C4: what `_generate_transaction_id`'s format does make unique.  Two ids
agree only when the bank name, the date, the account id, the amount, the
description's alphanumeric snippet, the description's 4-hex-digit digest and
the occurrence number all agree (here for bank names and account ids free of
the `_` separator, and constructor-valid dates).  The description itself is
NOT recovered — only its snippet and 4-hex digest are — so ids are not
globally unique in the claimed sense: distinct descriptions with equal
snippet and digest collide (see the counterexample), as do equal-signature
rows across separate files. -/
theorem genTransactionId_injective (b1 b2 : Str) (d1 d2 : PyDate) (a1 a2 : Str)
    (m1 m2 : Dec) (s1 s2 : Str) (o1 o2 : Nat)
    (hb1 : b1.all (fun c => !(c == '_')) = true)
    (hb2 : b2.all (fun c => !(c == '_')) = true)
    (ha1 : a1.all (fun c => !(c == '_')) = true)
    (ha2 : a2.all (fun c => !(c == '_')) = true)
    (hd1 : d1.valid = true) (hd2 : d2.valid = true)
    (h : genTransactionId b1 d1 a1 m1 s1 o1 = genTransactionId b2 d2 a2 m2 s2 o2) :
    b1 = b2 ∧ d1 = d2 ∧ a1 = a2 ∧ m1 = m2 ∧
      descSnippet s1 = descSnippet s2 ∧ descHash4 s1 = descHash4 s2 ∧ o1 = o2 := by
  unfold genTransactionId at h
  obtain ⟨hb, h⟩ := sepSplit h hb1 hb2
  obtain ⟨hy, h⟩ := sepSplit h
    (all_ne_underscore_of_digit (ymd_all_digit d1))
    (all_ne_underscore_of_digit (ymd_all_digit d2))
  obtain ⟨ha, h⟩ := sepSplit h ha1 ha2
  obtain ⟨hm, h⟩ := sepSplit h (toChars_no_underscore m1) (toChars_no_underscore m2)
  have h5 : (descSnippet s1 ++ '-' :: descHash4 s1) ++ '_' :: natChars o1 =
      (descSnippet s2 ++ '-' :: descHash4 s2) ++ '_' :: natChars o2 := by
    simpa [List.append_assoc] using h
  obtain ⟨hsh, ho⟩ := sepSplitLast h5
    (all_ne_underscore_of_digit (natChars_all_digit o1))
    (all_ne_underscore_of_digit (natChars_all_digit o2))
  obtain ⟨hs, hh⟩ := List.append_inj' hsh (by simp [descHash4_length])
  refine ⟨hb, ymd_inj hd1 hd2 hy, ha, toChars_injective hm, hs, ?_, natChars_inj ho⟩
  simpa using hh

/-- Witness for C4's amended uniqueness at concrete components. -/
theorem genTransactionId_injective_witness :
    ("anz".toList.all (fun c => !(c == '_')) = true ∧
      "acct".toList.all (fun c => !(c == '_')) = true ∧
      PyDate.valid ⟨2025, 11, 1⟩ = true) ∧
    ("anz".toList = "anz".toList ∧ (⟨2025, 11, 1⟩ : PyDate) = ⟨2025, 11, 1⟩ ∧
      "acct".toList = "acct".toList ∧
      (⟨true, 5000, -2⟩ : Dec) = ⟨true, 5000, -2⟩ ∧
      descSnippet ("SHOP".toList) = descSnippet ("SHOP".toList) ∧
      descHash4 ("SHOP".toList) = descHash4 ("SHOP".toList) ∧ 1 = 1) :=
  ⟨⟨by decide, by decide, by decide⟩,
    genTransactionId_injective ("anz".toList) ("anz".toList)
      ⟨2025, 11, 1⟩ ⟨2025, 11, 1⟩ ("acct".toList) ("acct".toList)
      ⟨true, 5000, -2⟩ ⟨true, 5000, -2⟩ ("SHOP".toList) ("SHOP".toList) 1 1
      (by decide) (by decide) (by decide) (by decide) (by decide) (by decide) rfl⟩

/-- An ANZ export whose two rows carry different descriptions (`SHOP>=` and
`SHOP.??`) with the same alphanumeric snippet (`SHOP`) and the same first four
MD5 hex digits (`2130`). -/
def anzCollisionFile : CsvFile :=
  ⟨"anz-acct".toList, "export".toList, ".csv".toList, true, [],
    [(["01/11/2025", "-50.00", "SHOP>=", "", ""]).map String.toList,
     (["01/11/2025", "-50.00", "SHOP.??", "", ""]).map String.toList]⟩

set_option maxRecDepth 1000000 in
/-- Counterexample to C4 as stated: one ANZ parse yields two transactions
whose descriptions differ — a component of the claimed uniqueness tuple — yet
whose ids are the same string, because an id sees the description only
through its alphanumeric snippet and a 4-hex-digit digest and both collide
here. -/
theorem id_collision_distinct_descriptions :
    (anzParse anzCollisionFile now0).toOption.map
        (List.map (fun t => (t.id, t.description))) =
      some [(("anz_20251101_anz-acct_-50.00_SHOP-2130_1").toList,
              "SHOP>=".toList),
            (("anz_20251101_anz-acct_-50.00_SHOP-2130_1").toList,
              "SHOP.??".toList)] ∧
    "SHOP>=".toList ≠ "SHOP.??".toList := by
  constructor
  · decide
  · decide


/-! ## Time-independence of parsing (claim C3) -/

/-- Replace the volatile timestamps of a transaction: `created_at` and the raw
record's `parsed_at`.  Everything else — the id included — is untouched. -/
def Transaction.retime (now : PyDateTime) (t : Transaction) : Transaction :=
  { t with createdAt := now,
           rawTransaction := t.rawTransaction.map fun r => { r with parsedAt := now } }

/-- `retime` lifted to a row outcome. -/
def RowResult.retime (now : PyDateTime) : RowResult → RowResult
  | .ok t => .ok (t.retime now)
  | r => r

theorem westpacParseRow_retime (header row : List Str) (n : Nat) (p : Str)
    (t1 t2 : PyDateTime) :
    westpacParseRow header row n p t2 =
      RowResult.retime t2 (westpacParseRow header row n p t1) := by
  unfold westpacParseRow
  repeat' split <;> try rfl

theorem cbaParseRow_retime (row : List Str) (n : Nat) (p a : Str)
    (t1 t2 : PyDateTime) :
    cbaParseRow row n p a t2 = RowResult.retime t2 (cbaParseRow row n p a t1) := by
  unfold cbaParseRow
  dsimp only
  repeat' split <;> try rfl

theorem bankwestParseRow_retime (header row : List Str) (n : Nat) (p : Str)
    (t1 t2 : PyDateTime) :
    bankwestParseRow header row n p t2 =
      RowResult.retime t2 (bankwestParseRow header row n p t1) := by
  unfold bankwestParseRow
  repeat' split <;> try rfl

theorem macquarieParseRow_retime (header row : List Str) (n : Nat) (p : Str)
    (t1 t2 : PyDateTime) :
    macquarieParseRow header row n p t2 =
      RowResult.retime t2 (macquarieParseRow header row n p t1) := by
  unfold macquarieParseRow
  repeat' split <;> try rfl


theorem retime_id (now : PyDateTime) (t : Transaction) :
    (Transaction.retime now t).id = t.id := rfl

/-- The shared row loop maps a pointwise-retimed row function to a retimed
transaction list. -/
theorem rowLoop_retime (pr1 pr2 : List Str → Nat → RowResult) (t2 : PyDateTime)
    (hpr : ∀ row n, pr2 row n = RowResult.retime t2 (pr1 row n)) :
    ∀ rows n, rowLoop pr2 rows n = (rowLoop pr1 rows n).map (Transaction.retime t2) := by
  intro rows
  induction rows with
  | nil => intro n; rfl
  | cons row rest ih =>
    intro n
    show (match pr2 row n with
          | .ok t => t :: rowLoop pr2 rest (n + 1)
          | _ => rowLoop pr2 rest (n + 1)) =
      (match pr1 row n with
        | .ok t => t :: rowLoop pr1 rest (n + 1)
        | _ => rowLoop pr1 rest (n + 1)).map (Transaction.retime t2)
    rw [hpr row n]
    cases pr1 row n with
    | ok t =>
      show Transaction.retime t2 t :: rowLoop pr2 rest (n + 1) =
        Transaction.retime t2 t :: (rowLoop pr1 rest (n + 1)).map (Transaction.retime t2)
      rw [ih (n + 1)]
    | skip => exact ih (n + 1)
    | err => exact ih (n + 1)

theorem westpacParse_retime (f : CsvFile) (t1 t2 : PyDateTime) :
    westpacParse f t2 = (westpacParse f t1).map (List.map (Transaction.retime t2)) := by
  unfold westpacParse
  split
  · exact congrArg Except.ok (rowLoop_retime _ _ t2
      (fun row n => westpacParseRow_retime f.headerRow row n f.pathStr t1 t2)
      f.dataRows 2)
  · rfl

theorem cbaParse_retime (f : CsvFile) (t1 t2 : PyDateTime) :
    cbaParse f t2 = (cbaParse f t1).map (List.map (Transaction.retime t2)) := by
  unfold cbaParse
  split
  · exact congrArg Except.ok (rowLoop_retime _ _ t2
      (fun row n => cbaParseRow_retime row n f.pathStr (cbaDeriveAccountId f) t1 t2)
      f.rawRows 1)
  · rfl

theorem bankwestParse_retime (f : CsvFile) (t1 t2 : PyDateTime) :
    bankwestParse f t2 = (bankwestParse f t1).map (List.map (Transaction.retime t2)) := by
  unfold bankwestParse
  split
  · exact congrArg Except.ok (rowLoop_retime _ _ t2
      (fun row n => bankwestParseRow_retime f.headerRow row n f.pathStr t1 t2)
      f.dataRows 2)
  · rfl

theorem macquarieParse_retime (f : CsvFile) (t1 t2 : PyDateTime) :
    macquarieParse f t2 = (macquarieParse f t1).map (List.map (Transaction.retime t2)) := by
  unfold macquarieParse
  split
  · exact congrArg Except.ok (rowLoop_retime _ _ t2
      (fun row n => macquarieParseRow_retime f.headerRow row n f.pathStr t1 t2)
      f.dataRows 2)
  · rfl

/-- `retime` lifted to the ANZ intermediate record. -/
def RowData.retime (now : PyDateTime) (d : RowData) : RowData :=
  { d with rawTransaction := { d.rawTransaction with parsedAt := now } }

theorem retime_signature (now : PyDateTime) (d : RowData) :
    (RowData.retime now d).signature = d.signature := rfl

theorem anzParseRowData_retime (row : List Str) (n : Nat) (p a : Str)
    (t1 t2 : PyDateTime) :
    anzParseRowData row n p a t2 =
      (anzParseRowData row n p a t1).map (Option.map (RowData.retime t2)) := by
  unfold anzParseRowData
  dsimp only
  repeat' split <;> try rfl

theorem anzDataLoop_retime (p a : Str) (t1 t2 : PyDateTime) :
    ∀ rows n, anzDataLoop p a t2 rows n =
      (anzDataLoop p a t1 rows n).map (RowData.retime t2) := by
  intro rows
  induction rows with
  | nil => intro n; rfl
  | cons row rest ih =>
    intro n
    show (match anzParseRowData row n p a t2 with
          | .ok (some d) => d :: anzDataLoop p a t2 rest (n + 1)
          | _ => anzDataLoop p a t2 rest (n + 1)) =
      (match anzParseRowData row n p a t1 with
        | .ok (some d) => d :: anzDataLoop p a t1 rest (n + 1)
        | _ => anzDataLoop p a t1 rest (n + 1)).map (RowData.retime t2)
    rw [anzParseRowData_retime row n p a t1 t2]
    cases anzParseRowData row n p a t1 with
    | error e => exact ih (n + 1)
    | ok o =>
      cases o with
      | none => exact ih (n + 1)
      | some d =>
        show RowData.retime t2 d :: anzDataLoop p a t2 rest (n + 1) =
          RowData.retime t2 d ::
            (anzDataLoop p a t1 rest (n + 1)).map (RowData.retime t2)
        rw [ih (n + 1)]

/-- Occurrence assignment commutes with retiming: signatures are untouched. -/
theorem occGo_retime (now : PyDateTime) :
    ∀ (rows : List RowData) (counter : Str × Str × Str × Str → Nat),
      occGo counter (rows.map (RowData.retime now)) =
        (occGo counter rows).map (fun q => (RowData.retime now q.1, q.2)) := by
  intro rows
  induction rows with
  | nil => intro counter; rfl
  | cons r rest ih =>
    intro counter
    show (RowData.retime now r, counter r.signature + 1) ::
        occGo (fun s => if s = r.signature then counter r.signature + 1 else counter s)
          (rest.map (RowData.retime now)) =
      (RowData.retime now r, counter r.signature + 1) ::
        (occGo (fun s => if s = r.signature then counter r.signature + 1 else counter s)
            rest).map (fun q => (RowData.retime now q.1, q.2))
    rw [ih]

theorem anzParse_retime (f : CsvFile) (t1 t2 : PyDateTime) :
    anzParse f t2 = (anzParse f t1).map (List.map (Transaction.retime t2)) := by
  unfold anzParse
  split
  · rw [anzDataLoop_retime f.pathStr (anzDeriveAccountId f) t1 t2 f.rawRows 1]
    unfold assignOccurrenceNumbers
    rw [occGo_retime t2 (anzDataLoop f.pathStr (anzDeriveAccountId f) t1 f.rawRows 1)
      (fun _ => 0)]
    refine congrArg Except.ok ?_
    rw [List.map_map, List.map_map]
    exact List.map_congr_left (fun q _ => rfl)
  · rfl

/-- Every built-in parser is time-oblivious: parsing at a different time
retimes the produced transactions and changes nothing else. -/
theorem bankParse_retime (b : Bank) (f : CsvFile) (t1 t2 : PyDateTime) :
    Bank.parse b f t2 = (Bank.parse b f t1).map (List.map (Transaction.retime t2)) := by
  cases b with
  | westpac => exact westpacParse_retime f t1 t2
  | anz => exact anzParse_retime f t1 t2
  | bankwest => exact bankwestParse_retime f t1 t2
  | cba => exact cbaParse_retime f t1 t2
  | macquarie => exact macquarieParse_retime f t1 t2

theorem parse_retime_toOption
    (pr : CsvFile → PyDateTime → Except Unit (List Transaction))
    (hpr : ∀ f t1 t2, pr f t2 = (pr f t1).map (List.map (Transaction.retime t2)))
    (f : CsvFile) (t1 t2 : PyDateTime) :
    (pr f t1).toOption.map (List.map Transaction.id) =
      (pr f t2).toOption.map (List.map Transaction.id) ∧
    (pr f t1).toOption.map List.length =
      (pr f t2).toOption.map List.length := by
  rw [hpr f t1 t2]
  cases pr f t1 with
  | error e => exact ⟨rfl, rfl⟩
  | ok l =>
    constructor
    · show some (l.map Transaction.id) =
        some ((l.map (Transaction.retime t2)).map Transaction.id)
      rw [List.map_map]
      exact congrArg some (List.map_congr_left (fun t _ => rfl))
    · show some l.length = some (l.map (Transaction.retime t2)).length
      rw [List.length_map]

/-- C3: id determinism.  For every registered parser and file, parsing at two
different times (the only way two separate calls on the same unmodified file
can differ in this model — the parsers keep no state between calls) gives
either the same error, or transaction lists of the same length with the same
id at every position: ids are a function of file content alone. -/
theorem parse_ids_deterministic (p : PParser) (hp : p ∈ defaultRegistry)
    (f : CsvFile) (t1 t2 : PyDateTime) :
    (p.parse f t1).toOption.map (List.map Transaction.id) =
      (p.parse f t2).toOption.map (List.map Transaction.id) ∧
    (p.parse f t1).toOption.map List.length =
      (p.parse f t2).toOption.map List.length := by
  have hb : ∃ b : Bank, p = Bank.entry b := by
    simp only [defaultRegistry, List.map_cons, List.map_nil, List.mem_cons,
      List.not_mem_nil, or_false] at hp
    rcases hp with rfl | rfl | rfl | rfl | rfl
    · exact ⟨.westpac, rfl⟩
    · exact ⟨.anz, rfl⟩
    · exact ⟨.bankwest, rfl⟩
    · exact ⟨.cba, rfl⟩
    · exact ⟨.macquarie, rfl⟩
  obtain ⟨b, rfl⟩ := hb
  exact parse_retime_toOption (Bank.parse b)
    (fun f t1 t2 => bankParse_retime b f t1 t2) f t1 t2

/-- Witness for C3: the registered ANZ parser at two different times on a
concrete file. -/
theorem parse_ids_deterministic_witness :
    Bank.entry Bank.anz ∈ defaultRegistry ∧
    ((Bank.entry Bank.anz).parse anzEmptyFile now0).toOption.map
        (List.map Transaction.id) =
      ((Bank.entry Bank.anz).parse anzEmptyFile ⟨2027, 2, 3, 4, 5, 6, 7⟩).toOption.map
        (List.map Transaction.id) :=
  ⟨by simp [defaultRegistry],
    (parse_ids_deterministic (Bank.entry Bank.anz) (by simp [defaultRegistry])
      anzEmptyFile now0 ⟨2027, 2, 3, 4, 5, 6, 7⟩).1⟩


/-! ## Store idempotence (claim C1) -/

/-- The store already holds a row with primary key `i`. -/
def hasId (s : List DbRow) (i : Str) : Bool := s.any (fun r => decide (r.id = i))

theorem hasId_saveTransaction (s : List DbRow) (u : Transaction) (i : Str)
    (h : hasId s i = true) : hasId (saveTransaction s u).1 i = true := by
  unfold saveTransaction
  split
  · exact h
  · unfold hasId at h ⊢
    rw [List.any_append]
    simp [h]

theorem hasId_saveTransaction_self (s : List DbRow) (u : Transaction) :
    hasId (saveTransaction s u).1 u.id = true := by
  unfold saveTransaction
  split
  · rename_i h
    exact h
  · unfold hasId
    rw [List.any_append]
    simp [dbRowOf]

theorem saveTransactions_hasId : ∀ (ts : List Transaction) (s : List DbRow) (i : Str),
    hasId s i = true → hasId (saveTransactions s ts).1 i = true := by
  intro ts
  induction ts with
  | nil => intro s i h; exact h
  | cons u rest ih =>
    intro s i h
    show hasId (saveTransactions (saveTransaction s u).1 rest).1 i = true
    exact ih _ i (hasId_saveTransaction s u i h)

/-- After a batch save, every id of the batch is in the store. -/
theorem saveTransactions_mem_hasId : ∀ (ts : List Transaction) (s : List DbRow),
    ∀ u ∈ ts, hasId (saveTransactions s ts).1 u.id = true := by
  intro ts
  induction ts with
  | nil => intro s u hu; cases hu
  | cons v rest ih =>
    intro s u hu
    show hasId (saveTransactions (saveTransaction s v).1 rest).1 u.id = true
    rcases List.mem_cons.mp hu with rfl | hu
    · exact saveTransactions_hasId rest _ u.id (hasId_saveTransaction_self s u)
    · exact ih _ u hu

/-- Saving a batch whose ids are all present changes nothing and counts every
transaction as skipped. -/
theorem saveTransactions_all_dup : ∀ (ts : List Transaction) (s : List DbRow),
    (∀ u ∈ ts, hasId s u.id = true) →
    saveTransactions s ts = (s, 0, ts.length) := by
  intro ts
  induction ts with
  | nil => intro s h; rfl
  | cons u rest ih =>
    intro s h
    have hu : hasId s u.id = true := h u (List.mem_cons_self u rest)
    have hsv : saveTransaction s u = (s, false) := by
      unfold saveTransaction
      exact if_pos hu
    show ((saveTransactions (saveTransaction s u).1 rest).1,
        (if (saveTransaction s u).2 then 1 else 0) +
          (saveTransactions (saveTransaction s u).1 rest).2.1,
        (if (saveTransaction s u).2 then 0 else 1) +
          (saveTransactions (saveTransaction s u).1 rest).2.2) =
      (s, 0, rest.length + 1)
    rw [hsv]
    dsimp only
    rw [ih s (fun v hv => h v (List.mem_cons_of_mem u hv))]
    simp [Nat.add_comm]

/-- C1: re-importing an unmodified file is idempotent at the store.  If a
registered parser accepts a file at one time (producing `ts1`, saved into any
store) and again at another (producing `ts2`, with `ts2.length = N`), then
the second `save_transactions` call inserts nothing: it returns the store
unchanged with `saved = 0` and `skipped = N`. -/
theorem reimport_idempotent (p : PParser) (hp : p ∈ defaultRegistry)
    (f : CsvFile) (t1 t2 : PyDateTime) (s0 : List DbRow)
    (ts1 ts2 : List Transaction)
    (h1 : p.parse f t1 = .ok ts1) (h2 : p.parse f t2 = .ok ts2) :
    saveTransactions (saveTransactions s0 ts1).1 ts2 =
      ((saveTransactions s0 ts1).1, 0, ts2.length) := by
  have hb : ∃ b : Bank, p = Bank.entry b := by
    simp only [defaultRegistry, List.map_cons, List.map_nil, List.mem_cons,
      List.not_mem_nil, or_false] at hp
    rcases hp with rfl | rfl | rfl | rfl | rfl
    · exact ⟨.westpac, rfl⟩
    · exact ⟨.anz, rfl⟩
    · exact ⟨.bankwest, rfl⟩
    · exact ⟨.cba, rfl⟩
    · exact ⟨.macquarie, rfl⟩
  obtain ⟨b, rfl⟩ := hb
  have h1s : Bank.parse b f t1 = .ok ts1 := h1
  have h2s : Bank.parse b f t2 = .ok ts2 := h2
  have hr := bankParse_retime b f t1 t2
  rw [h1s, h2s] at hr
  have hts : ts2 = ts1.map (Transaction.retime t2) := by
    simpa [Except.map] using hr
  subst hts
  apply saveTransactions_all_dup
  intro u hu
  obtain ⟨v, hv, rfl⟩ := List.mem_map.mp hu
  show hasId (saveTransactions s0 ts1).1 (Transaction.retime t2 v).id = true
  exact saveTransactions_mem_hasId ts1 s0 v hv

/-- Witness for C1: the registered ANZ parser on a concrete file, saved twice
into an empty store. -/
theorem reimport_idempotent_witness :
    (Bank.entry Bank.anz).parse anzEmptyFile now0 = .ok [] ∧
    saveTransactions (saveTransactions [] ([] : List Transaction)).1 [] =
      ((saveTransactions [] ([] : List Transaction)).1, 0, 0) :=
  ⟨rfl, reimport_idempotent (Bank.entry Bank.anz) (by simp [defaultRegistry])
    anzEmptyFile now0 now0 [] [] [] rfl rfl⟩

/-! ## Watcher terminal states (claim C9) -/

/-- C9 (amended): `process_file`'s three outcomes.  A parse error moves the
file (under its timestamped name) to `failed/` with an `.error` sidecar; a
parse yielding at least one transaction saves the batch and moves the file to
`processed/`; but a parse yielding an empty batch returns `False` leaving the
state — the watch directory included — completely unchanged, so that file
reaches neither terminal state and is rediscovered on every later scan.  In
all cases relocation only filters the file out of the watch list; nothing is
deleted. -/
theorem processFile_terminal (reg : List PParser) (ts : Str) (now : PyDateTime)
    (st : WatcherState) (f : CsvFile) :
    (∀ e, parseFile reg f none now = .error e →
      processFile reg ts now st f =
        ({ st with
            watch := st.watch.filter (fun g => decide (g ≠ f)),
            failed := st.failed ++ [destName f ts],
            sidecars := st.sidecars ++ [sidecarName f ts] }, false)) ∧
    (∀ t rest, parseFile reg f none now = .ok (t :: rest) →
      processFile reg ts now st f =
        ({ st with
            watch := st.watch.filter (fun g => decide (g ≠ f)),
            processed := st.processed ++ [destName f ts],
            store := (saveTransactions st.store (t :: rest)).1 }, true)) ∧
    (parseFile reg f none now = .ok [] →
      processFile reg ts now st f = (st, false)) := by
  refine ⟨?_, ?_, ?_⟩
  · intro e he
    unfold processFile
    rw [he]
  · intro t rest ho
    unfold processFile
    rw [ho]
  · intro ho
    unfold processFile
    rw [ho]

/-- A watcher state whose watch directory holds one file that parses to an
empty batch. -/
def emptyParseState : WatcherState := ⟨[anzEmptyFile], [], [], [], []⟩

/-- Counterexample to C9 as stated: a discovered file that a registered
parser accepts with zero transactions is processed, yet relocated nowhere —
it stays in the watch directory (to be picked up again on the next tick) and
reaches neither `processed/` nor `failed/`. -/
theorem watcher_leaves_empty_file :
    parseFile defaultRegistry anzEmptyFile none now0 = .ok [] ∧
    processFile defaultRegistry ("20260102".toList) now0 emptyParseState
        anzEmptyFile = (emptyParseState, false) ∧
    emptyParseState.watch = [anzEmptyFile] ∧
    emptyParseState.processed = [] ∧ emptyParseState.failed = [] :=
  ⟨rfl, rfl, rfl, rfl, rfl⟩

/-- Witness for C9's amended characterisation at a concrete state. -/
theorem processFile_terminal_witness :
    processFile defaultRegistry ("20260102".toList) now0 emptyParseState
      anzEmptyFile = (emptyParseState, false) :=
  (processFile_terminal defaultRegistry ("20260102".toList) now0 emptyParseState
    anzEmptyFile).2.2 rfl

end FamFin
